import Mathlib

/-!
Verification development for the JSON-RPC client core (package `bch_rpc`,
file `infrastructure.go` style).  The Go client is shallowly embedded as a
pure state machine: the mutable `Client` struct becomes an explicit state
record, goroutine channels become lists of the values ever written to them,
and every receiver method becomes a state-passing function.  External
collaborators (the `btcjson` marshalling library, the Go JSON decoder, the
HTTP transport and `net/url`) are modelled by their observable outcomes,
which the functions take as explicit inputs.
-/

/-- Errors of the client core.  Named sentinel errors from the source are
constructors; ad-hoc wrapped errors carry the data the source interpolates
into the message (`fmt.Errorf`), preserving exactly the information content
of the Go error value. -/
inductive RpcErr where
  /-- `ErrClientShutdown`: the client is already shutdown or shutting down. -/
  | clientShutdown
  /-- failure of `btcjson.CmdMethod` on the command. -/
  | methodErr (msg : String)
  /-- failure of `btcjson.MarshalCmd` on the command. -/
  | marshalErr (msg : String)
  /-- failure of `http.NewRequestWithContext` (the URL built from the
  configured host did not parse). -/
  | newRequestErr (url : String)
  /-- failure of `httpClient.Do` (transport error). -/
  | doErr (msg : String)
  /-- failure reading the response body, wrapped by
  `fmt.Errorf("error reading json reply: ...")`. -/
  | readBodyErr (msg : String)
  /-- reply body did not unmarshal as a JSON-RPC response; carries the HTTP
  status code and the raw response bytes, as in
  `fmt.Errorf("status code: %d, response: %q", ...)`. -/
  | statusErr (status : Nat) (body : String)
  /-- a structured `btcjson.RPCError` carried by the response `error` field. -/
  | rpcError (code : Int) (message : String)
  deriving DecidableEq, Repr

/-- `response`: the raw bytes of a JSON-RPC result, or the error if the
response error object was non-null.  `result []byte` is modelled as
`Option String` (`none` is Go `nil`). -/
structure response where
  result : Option String
  err : Option RpcErr
  deriving DecidableEq, Repr

/-- `jsonRequest` holds information about a json request that is used to
properly detect, interpret, and deliver a reply to it.  The `cmd` field of
the source (the untyped command value, unused after construction in this
snapshot) is omitted; `responseChan` is a channel identifier into the
client's channel store. -/
structure jsonRequest where
  id : Nat
  method : String
  marshalledJSON : String
  responseChan : Nat
  deriving DecidableEq, Repr

/-- Model of `*btcjson.RPCError` as it appears in the response `error`
field. -/
structure RPCError where
  code : Int
  message : String
  deriving DecidableEq, Repr

/-- `rawResponse`: a partially-unmarshaled JSON-RPC response.
`Result json.RawMessage` is `none` when the field is absent or null. -/
structure rawResponse where
  Result : Option String
  Error : Option RPCError
  deriving DecidableEq, Repr

/-- `rawNotification`: a partially-unmarshaled JSON-RPC notification.
`Params []json.RawMessage` is `none` for Go `nil` (absent field) and
`some []` for a present empty list. -/
structure rawNtfn where
  Method : String
  Params : Option (List String)
  deriving DecidableEq, Repr

/-- `inMessage`: the first type an incoming message is unmarshaled into.
`ID *float64` is modelled as `Option Rat`: a JSON number is carried as an
exact rational (the float values the guards inspect behave identically).
The embedded `rawResponse` and `rawNotification` pointers are pre-allocated
by `handleMessage` before unmarshalling and are never reset to nil by the
decoder, so they are embedded by value here. -/
structure inMessage where
  ID : Option Rat
  ntfn : rawNtfn
  resp : rawResponse
  deriving DecidableEq, Repr

/-- Outcome of `json.Unmarshal` on one inbound payload: either the decoder
fails, or it yields an `inMessage`.  The byte-level JSON decoder is an
external collaborator; `handleMessage` receives its outcome. -/
inductive inboundMsg where
  | malformed
  | parsed (m : inMessage)
  deriving DecidableEq, Repr

/-- Model of `*http.Request` as built by `sendPost`: POST to the given URL
with the marshalled command as body, `Content-Type: application/json`, and
basic-auth credentials. -/
structure httpRequest where
  url : String
  body : String
  contentType : String
  user : String
  pass : String
  deriving DecidableEq, Repr

/-- `sendPostDetails` houses an HTTP POST request to send to an RPC server
as well as the original JSON-RPC command. -/
structure sendPostDetails where
  httpReq : httpRequest
  jReq : jsonRequest
  deriving DecidableEq, Repr

/-- `ConnConfig`: the connection configuration fields the core logic reads.
`urlOK` models whether `net/url` accepts the URL built from `Host`
(`http.NewRequestWithContext` fails exactly when it does not). -/
structure ConnConfig where
  Host : String
  User : String
  Pass : String
  DisableTLS : Bool
  HTTPPostMode : Bool
  urlOK : Bool
  deriving DecidableEq, Repr

/-- The request registry stores `*list.Element` values; an element is the
pair of a unique allocation tag (standing for the node pointer identity)
and the stored `jsonRequest`. -/
abbrev Element := Nat × jsonRequest

/-- The `Client` state: the atomic `id` counter, the request registry
(`requestList` in insertion order plus `requestMap` from request id to the
list element, as in the source), the buffered `sendPostChan` queue, the
`shutdown` channel (`shutdownClosed` is whether it has been closed), and
the store of all response channels, indexed by channel identifier; each
channel records the full sequence of values ever written to it. -/
structure Client where
  id : Nat
  requestList : List Element
  requestMap : List (Nat × Element)
  nextElem : Nat
  sendPostChan : List sendPostDetails
  shutdownClosed : Bool
  chans : List (List response)
  config : ConnConfig
  deriving DecidableEq, Repr

/-- The sequence of values written so far to channel `cid`. -/
def chanWrites (c : Client) (cid : Nat) : List response :=
  c.chans.getD cid []

/-- Perform one channel send `ch <- r`.  All response channels in the
source have capacity one and are read at most once, so a send appends to
the write history. -/
def writeChan (c : Client) (cid : Nat) (r : response) : Client :=
  { c with chans := c.chans.set cid (c.chans.getD cid [] ++ [r]) }

/-- Allocate a fresh response channel (`make(chan *response, 1)`). -/
def newChan (c : Client) : Nat × Client :=
  (c.chans.length, { c with chans := c.chans ++ [[]] })

/-- `NextID` returns the next id to be used when sending a JSON-RPC
message: `atomic.AddUint64(&c.id, 1)`, which wraps at the 64-bit width. -/
def NextID (c : Client) : Nat × Client :=
  let n := (c.id + 1) % 2 ^ 64
  (n, { c with id := n })

/-- `addRequest` associates the passed jsonRequest with its id.  A
non-blocking read of the shutdown channel with the request lock held:
if the client is shutting down, `ErrClientShutdown` is returned and the
request is not added; otherwise the request is pushed onto the back of the
list and the map indexes the new element by the request id (Go map
assignment overwrites any previous binding of that id). -/
def addRequest (c : Client) (jReq : jsonRequest) : Option RpcErr × Client :=
  if c.shutdownClosed then (some .clientShutdown, c)
  else
    let el : Element := (c.nextElem, jReq)
    (none,
      { c with
        requestList := c.requestList ++ [el]
        requestMap := (jReq.id, el) :: c.requestMap.filter (fun p => p.1 ≠ jReq.id)
        nextElem := c.nextElem + 1 })

/-- `removeRequest` returns and removes the jsonRequest associated with the
passed id, or `none` if there is no association.  On a map hit the entry is
deleted from the map and the element is removed from the list (removal by
element identity, i.e. by allocation tag). -/
def removeRequest (c : Client) (rid : Nat) : Option jsonRequest × Client :=
  match c.requestMap.lookup rid with
  | none => (none, c)
  | some el =>
      (some el.2,
        { c with
          requestMap := c.requestMap.filter (fun p => p.1 ≠ rid)
          requestList := c.requestList.filter (fun q => q.1 ≠ el.1) })

/-- `removeAllRequests` empties both registry structures. -/
def removeAllRequests (c : Client) : Client :=
  { c with requestMap := [], requestList := [] }

/-- `math.Trunc` on the (exactly represented) JSON number: round toward
zero. -/
def mathTrunc (q : Rat) : Rat :=
  if q < 0 then ((Int.ceil q : Int) : Rat) else ((Int.floor q : Int) : Rat)

/-- Go conversion `uint64(f)` for a float the guards have verified to be a
non-negative integer. -/
def ratToUint64 (q : Rat) : Nat :=
  (Int.floor q).toNat % 2 ^ 64

/-- `result` checks whether the unmarshaled response contains a non-nil
error, returning it if so; otherwise the raw bytes of the result are
returned for further unmarshaling. -/
def rawResponse.result (r : rawResponse) : Option String × Option RpcErr :=
  match r.Error with
  | some e => (none, some (.rpcError e.code e.message))
  | none => (r.Result, none)

/-- `handleMessage` is the main handler for incoming notifications and
responses.  It receives the outcome of `json.Unmarshal` on the payload.
The source checks `in.rawResponse == nil` and `in.rawNotification == nil`;
both are pre-allocated and never reset by the decoder, so those branches
are unreachable and the embedded values are used directly.  The delivery of
a validated notification is absent from this snapshot (the branch falls
through to `return`). -/
def handleMessage (c : Client) (msg : inboundMsg) : Client :=
  match msg with
  | .malformed => c
  | .parsed m =>
    match m.ID with
    | none =>
        -- JSON-RPC 1.0 notifications are requests with a null id.
        if m.ntfn.Method = "" then c
        else if m.ntfn.Params = none then c
        else c
    | some q =>
        -- ensure the ID converts to an integer without loss of precision
        if q < 0 ∨ q ≠ mathTrunc q then c
        else
          match removeRequest c (ratToUint64 q) with
          | (none, c1) => c1
          | (some request, c1) =>
              let (res, err) := m.resp.result
              writeChan c1 request.responseChan { result := res, err := err }

/-- Outcome of the external HTTP transport on one POST request: `Do`
fails, reading the body fails, or a body is read with the given status
code, raw bytes, and outcome of `json.Unmarshal` into a `rawResponse`. -/
inductive httpOutcome where
  | doFail (msg : String)
  | readFail (msg : String)
  | reply (status : Nat) (body : String) (parsed : Option rawResponse)
  deriving DecidableEq, Repr

/-- `handleSendPostMessage` performs the HTTP request, reads the result,
unmarshals it, and delivers the unmarshalled result to the response
channel.  Every failure is delivered as the error of exactly one response
write; nothing escapes the function. -/
def handleSendPostMessage (c : Client) (d : sendPostDetails) (out : httpOutcome) : Client :=
  match out with
  | .doFail e => writeChan c d.jReq.responseChan { result := none, err := some (.doErr e) }
  | .readFail e => writeChan c d.jReq.responseChan { result := none, err := some (.readBodyErr e) }
  | .reply status body none =>
      writeChan c d.jReq.responseChan { result := none, err := some (.statusErr status body) }
  | .reply _ _ (some resp) =>
      let (res, err) := resp.result
      writeChan c d.jReq.responseChan { result := res, err := err }

/-- One iteration of the main loop of `sendPostHandler`: take the next
queued details (if any) and handle them with the given transport
outcome. -/
def sendPostHandlerStep (c : Client) (out : httpOutcome) : Client :=
  match c.sendPostChan with
  | [] => c
  | d :: rest => handleSendPostMessage { c with sendPostChan := rest } d out

/-- The cleanup loop of `sendPostHandler`: after the shutdown channel is
closed, drain the queue, answering every waiting request with
`ErrClientShutdown`. -/
def drainPostQueue : List sendPostDetails → Client → Client
  | [], c => c
  | d :: rest, c =>
      drainPostQueue rest
        (writeChan c d.jReq.responseChan { result := none, err := some .clientShutdown })

/-- `sendPostHandler` after `break out`: the drain phase applied to the
whole pending queue. -/
def sendPostHandlerDrain (c : Client) : Client :=
  drainPostQueue c.sendPostChan { c with sendPostChan := [] }

/-- `sendPostRequest` sends the passed HTTP request to the worker queue.
If the shutdown channel is closed it first writes `ErrClientShutdown` into
the response channel; in either case it then enqueues the details onto
`sendPostChan` (queue capacity and blocking back-pressure are not part of
this sequential model). -/
def sendPostRequest (c : Client) (httpReq : httpRequest) (jReq : jsonRequest) : Client :=
  let c1 :=
    if c.shutdownClosed then
      writeChan c jReq.responseChan { result := none, err := some .clientShutdown }
    else c
  { c1 with sendPostChan := c1.sendPostChan ++ [{ httpReq := httpReq, jReq := jReq }] }

/-- `sendPost` builds the HTTP POST request for the configured server and
hands it to `sendPostRequest`; when `http.NewRequestWithContext` rejects
the URL the error goes straight into the response channel. -/
def sendPost (c : Client) (jReq : jsonRequest) : Client :=
  let protocol := if c.config.DisableTLS then "http" else "https"
  let url := protocol ++ "://" ++ c.config.Host
  if c.config.urlOK then
    sendPostRequest c
      { url := url, body := jReq.marshalledJSON, contentType := "application/json",
        user := c.config.User, pass := c.config.Pass } jReq
  else
    writeChan c jReq.responseChan { result := none, err := some (.newRequestErr url) }

/-- `sendRequest` dispatches by mode: in HTTP POST mode the command is
issued via the HTTP client; otherwise (websocket mode) this snapshot
contains no send path and the function returns. -/
def sendRequest (c : Client) (jReq : jsonRequest) : Client :=
  if c.config.HTTPPostMode then sendPost c jReq else c

/-- Model of a command value together with the behaviour of the external
`btcjson` library on it: the outcome of `btcjson.CmdMethod` and, per
assigned id, of `btcjson.MarshalCmd "1.0" id cmd`. -/
structure Cmd where
  methodRes : Except String String
  marshalRes : Nat → Except String String

/-- `newFutureError` returns a new future result channel that already has
the passed error waiting on it. -/
def newFutureError (c : Client) (e : RpcErr) : Nat × Client :=
  let (cid, c1) := newChan c
  (cid, writeChan c1 cid { result := none, err := some e })

/-- `sendCmd` sends the passed command and returns a response channel on
which the reply will be delivered: resolve the method, obtain a new id,
marshal, build the request with a fresh capacity-one response channel, and
dispatch via `sendRequest`. -/
def sendCmd (c : Client) (cmd : Cmd) : Nat × Client :=
  match cmd.methodRes with
  | .error e => newFutureError c (.methodErr e)
  | .ok method =>
      let (id, c1) := NextID c
      match cmd.marshalRes id with
      | .error e => newFutureError c1 (.marshalErr e)
      | .ok mj =>
          let (cid, c2) := newChan c1
          let jReq : jsonRequest :=
            { id := id, method := method, marshalledJSON := mj, responseChan := cid }
          (cid, sendRequest c2 jReq)

/-- `receiveFuture` blocks until a value is available on the channel and
returns it; `none` models an empty channel on which the receive would
block indefinitely. -/
def receiveFuture (c : Client) (cid : Nat) : Option response :=
  (chanWrites c cid).head?

/-- `doShutdown` closes the shutdown channel unless it is already
closed; returns whether it closed it. -/
def doShutdown (c : Client) : Bool × Client :=
  if c.shutdownClosed then (false, c)
  else (true, { c with shutdownClosed := true })

/-- The notification loop of `Shutdown`: walk the request list front to
back and send `ErrClientShutdown` to every pending request. -/
def deliverShutdownErr : List Element → Client → Client
  | [], c => c
  | el :: rest, c =>
      deliverShutdownErr rest
        (writeChan c el.2.responseChan { result := none, err := some .clientShutdown })

/-- `Shutdown` shuts down the client: under the request lock, close the
shutdown channel (no-op if already closed), send `ErrClientShutdown` to
every pending request, and remove all requests. -/
def Shutdown (c : Client) : Client :=
  let (did, c1) := doShutdown c
  if did then removeAllRequests (deliverShutdownErr c1.requestList c1)
  else c1

/-- `start` begins processing messages: in HTTP POST mode the
`sendPostHandler` goroutine is spawned; in websocket mode this snapshot
starts nothing.  Returns the names of the handler goroutines started. -/
def start (c : Client) : Client × List String :=
  if c.config.HTTPPostMode then (c, ["sendPostHandler"]) else (c, [])

/-- `New` creates a client from a connection configuration: zeroed id
counter, empty registry, empty queues, open shutdown channel. -/
def New (config : ConnConfig) : Client :=
  { id := 0, requestList := [], requestMap := [], nextElem := 0,
    sendPostChan := [], shutdownClosed := false, chans := [], config := config }

/-- The `ErrClientShutdown` response envelope, as written by `Shutdown`,
the post-queue drain, and the post-shutdown short-circuit. -/
def shutdownResponse : response :=
  { result := none, err := some .clientShutdown }

/-- The outputs of `k` successive `NextID` calls on the client. -/
def nextIDs (c : Client) : Nat → List Nat
  | 0 => []
  | k + 1 =>
      let (n, c1) := NextID c
      n :: nextIDs c1 k

/-- How many registry entries hold a reference to channel `cid`. -/
def listRefs (c : Client) (cid : Nat) : Nat :=
  c.requestList.countP (fun el => el.2.responseChan == cid)

/-- How many queued `sendPostChan` entries hold a reference to channel
`cid`. -/
def queueRefs (c : Client) (cid : Nat) : Nat :=
  c.sendPostChan.countP (fun d => d.jReq.responseChan == cid)

/-- State invariant of the client, established at construction and
preserved by every operation: all channel references are into the store;
every map entry points at an element of the list; element tags are below
the allocator and distinct in the list; distinct map keys hold distinct
elements; and every channel has at most one write-or-reference in total
(the single-slot discipline). -/
def ClientInv (c : Client) : Prop :=
  (∀ el ∈ c.requestList, el.2.responseChan < c.chans.length) ∧
  (∀ d ∈ c.sendPostChan, d.jReq.responseChan < c.chans.length) ∧
  (∀ pr ∈ c.requestMap, pr.2 ∈ c.requestList) ∧
  (∀ el ∈ c.requestList, el.1 < c.nextElem) ∧
  (c.requestList.map Prod.fst).Nodup ∧
  (∀ pr1 ∈ c.requestMap, ∀ pr2 ∈ c.requestMap, pr1.2.1 = pr2.2.1 → pr1.1 = pr2.1) ∧
  (∀ cid, (chanWrites c cid).length + listRefs c cid + queueRefs c cid ≤ 1)

/-- The operations that drive a client, for the single-write theorem:
registration of a request carrying a freshly made future (the
`addRequest` path of the upstream dispatch), a `sendCmd` call, one main
loop iteration of `sendPostHandler`, its cleanup drain, an inbound payload
reaching `handleMessage`, and a `Shutdown` call. -/
inductive clientOp where
  | register (rid : Nat) (method mj : String)
  | post (cmd : Cmd)
  | handlerStep (out : httpOutcome)
  | handlerDrain
  | inbound (msg : inboundMsg)
  | shutdownCall

/-- Execute one operation on the client state. -/
def runOp (c : Client) : clientOp → Client
  | .register rid method mj =>
      let (cid, c1) := newChan c
      (addRequest c1 { id := rid, method := method, marshalledJSON := mj, responseChan := cid }).2
  | .post cmd => (sendCmd c cmd).2
  | .handlerStep out => sendPostHandlerStep c out
  | .handlerDrain => sendPostHandlerDrain c
  | .inbound msg => handleMessage c msg
  | .shutdownCall => Shutdown c

/-- Execute a sequence of operations. -/
def runOps (c : Client) : List clientOp → Client
  | [] => c
  | o :: os => runOps (runOp c o) os

/-- Scheduling discipline under which the single-slot write contract
holds: `sendCmd` is not called after shutdown has begun.  (The
post-shutdown `sendCmd` is exactly the execution the counterexample for
the original claim exhibits.) -/
def opsOK (c : Client) : List clientOp → Bool
  | [] => true
  | o :: os =>
      (match o with
        | .post _ => c.shutdownClosed = false
        | _ => true) &&
      opsOK (runOp c o) os

/-- A concrete HTTP-POST-mode configuration. -/
def postCfg : ConnConfig :=
  { Host := "localhost:8334", User := "u", Pass := "p", DisableTLS := true,
    HTTPPostMode := true, urlOK := true }

/-- The same configuration in websocket (non-POST) mode. -/
def wsCfg : ConnConfig :=
  { postCfg with HTTPPostMode := false }

/-- A concrete command on which the external library succeeds. -/
def blockCountCmd : Cmd :=
  { methodRes := .ok "getblockcount", marshalRes := fun i => .ok (toString i) }

/-- A concrete command on which `btcjson.MarshalCmd` fails. -/
def badMarshalCmd : Cmd :=
  { methodRes := .ok "getblockcount", marshalRes := fun _ => .error "unregistered type" }

/-- The rational 7/2, built by explicit constructor so that kernel
evaluation of the guards is direct. -/
def sevenHalves : Rat := ⟨7, 2, by decide, by decide⟩

/-- A concrete client with one registered pending request (id 7) holding
a fresh future (channel 0). -/
def pendingClient : Client :=
  (addRequest (newChan (New wsCfg)).2
    { id := 7, method := "getblockcount", marshalledJSON := "j", responseChan := 0 }).2

/-! ## Basic lemmas about the channel store -/

theorem chanWrites_def (c : Client) (cid : Nat) :
    chanWrites c cid = (c.chans.get? cid).getD [] := rfl

@[simp] theorem writeChan_chans_length (c : Client) (cid : Nat) (r : response) :
    (writeChan c cid r).chans.length = c.chans.length := by
  simp [writeChan]

@[simp] theorem writeChan_requestList (c : Client) (cid : Nat) (r : response) :
    (writeChan c cid r).requestList = c.requestList := rfl

@[simp] theorem writeChan_requestMap (c : Client) (cid : Nat) (r : response) :
    (writeChan c cid r).requestMap = c.requestMap := rfl

@[simp] theorem writeChan_nextElem (c : Client) (cid : Nat) (r : response) :
    (writeChan c cid r).nextElem = c.nextElem := rfl

@[simp] theorem writeChan_sendPostChan (c : Client) (cid : Nat) (r : response) :
    (writeChan c cid r).sendPostChan = c.sendPostChan := rfl

@[simp] theorem writeChan_shutdownClosed (c : Client) (cid : Nat) (r : response) :
    (writeChan c cid r).shutdownClosed = c.shutdownClosed := rfl

@[simp] theorem writeChan_config (c : Client) (cid : Nat) (r : response) :
    (writeChan c cid r).config = c.config := rfl

@[simp] theorem writeChan_id (c : Client) (cid : Nat) (r : response) :
    (writeChan c cid r).id = c.id := rfl

theorem chanWrites_writeChan_self (c : Client) (cid : Nat) (r : response)
    (h : cid < c.chans.length) :
    chanWrites (writeChan c cid r) cid = chanWrites c cid ++ [r] := by
  show ((c.chans.set cid (c.chans.getD cid [] ++ [r])).get? cid).getD [] = _
  rw [List.get?_set_eq_of_lt _ h]
  rfl

theorem chanWrites_writeChan_ne (c : Client) (cid cid2 : Nat) (r : response)
    (h : cid2 ≠ cid) :
    chanWrites (writeChan c cid r) cid2 = chanWrites c cid2 := by
  show ((c.chans.set cid (c.chans.getD cid [] ++ [r])).get? cid2).getD [] = _
  rw [List.get?_set_ne _ _ (Ne.symm h)]
  rfl

theorem writeChan_oob (c : Client) (cid : Nat) (r : response)
    (h : c.chans.length ≤ cid) :
    writeChan c cid r = c := by
  simp [writeChan, List.set_eq_of_length_le h]

theorem chanWrites_oob (c : Client) (cid : Nat) (h : c.chans.length ≤ cid) :
    chanWrites c cid = [] := by
  rw [chanWrites_def, List.get?_len_le h]
  rfl

theorem chanWrites_newChan (c : Client) (cid : Nat) (h : cid < c.chans.length) :
    chanWrites (newChan c).2 cid = chanWrites c cid := by
  show (((c.chans ++ [[]]).get? cid)).getD [] = _
  rw [List.get?_append h]
  rfl

theorem chanWrites_newChan_fresh (c : Client) :
    chanWrites (newChan c).2 (newChan c).1 = [] := by
  show (((c.chans ++ [[]]).get? c.chans.length)).getD [] = []
  rw [List.get?_concat_length]
  rfl

/-! ## Arithmetic helpers -/

theorem mathTrunc_natCast (n : Nat) : mathTrunc ((n : Nat) : Rat) = ((n : Nat) : Rat) := by
  have h : ¬((n : Rat) < 0) := not_lt.mpr (Nat.cast_nonneg n)
  simp [mathTrunc, h]

theorem ratToUint64_natCast (n : Nat) (h : n < 2 ^ 64) :
    ratToUint64 ((n : Nat) : Rat) = n := by
  have h2 : (Int.floor ((n : Nat) : Rat)).toNat = n := rfl
  unfold ratToUint64
  rw [h2]
  omega

theorem handleMessage_id_none (c : Client) (m : inMessage) (h : m.ID = none) :
    handleMessage c (.parsed m) = c := by
  simp only [handleMessage, h]
  split
  · rfl
  · split
    · rfl
    · rfl

/-! ## C5 -/

/-- C5: `addRequest` returns `ErrClientShutdown` and leaves the registry
(and all other state) unchanged whenever the shutdown signal has already
been closed; otherwise it appends the request to the back of the list,
indexes the new element in the map under the request id, and returns no
error. -/
theorem C5_addRequest (c : Client) (j : jsonRequest) :
    (c.shutdownClosed = true → addRequest c j = (some .clientShutdown, c)) ∧
    (c.shutdownClosed = false →
      (addRequest c j).1 = none ∧
      (addRequest c j).2.requestList = c.requestList ++ [(c.nextElem, j)] ∧
      (addRequest c j).2.requestMap.lookup j.id = some (c.nextElem, j) ∧
      (addRequest c j).2.chans = c.chans ∧
      (addRequest c j).2.sendPostChan = c.sendPostChan ∧
      (addRequest c j).2.shutdownClosed = c.shutdownClosed ∧
      (addRequest c j).2.id = c.id) := by
  constructor
  · intro h
    simp [addRequest, h]
  · intro h
    simp [addRequest, h, List.lookup]

/-- Closed instance of C5: both branches exercised on concrete states. -/
theorem C5_witness :
    (addRequest (New postCfg)
        { id := 1, method := "getblockcount", marshalledJSON := "j", responseChan := 0 }).1
      = none ∧
    addRequest (Shutdown (New postCfg))
        { id := 1, method := "getblockcount", marshalledJSON := "j", responseChan := 0 }
      = (some .clientShutdown, Shutdown (New postCfg)) :=
  ⟨((C5_addRequest (New postCfg) _).2 rfl).1,
   (C5_addRequest (Shutdown (New postCfg)) _).1 rfl⟩

/-! ## C6 -/

/-- C6: `handleMessage` drops every malformed inbound payload without
mutating any state at all (registry, queues, and every response channel):
undecodable payloads, notifications with an empty method or an absent
params field, and responses whose ID is negative or has a fractional part
all leave the client state exactly unchanged, so no pending request's
future is affected. -/
theorem C6_handleMessage (c : Client) (m : inMessage) :
    handleMessage c .malformed = c ∧
    (m.ID = none → m.ntfn.Method = "" → handleMessage c (.parsed m) = c) ∧
    (m.ID = none → m.ntfn.Params = none → handleMessage c (.parsed m) = c) ∧
    (∀ q : Rat, m.ID = some q → q < 0 → handleMessage c (.parsed m) = c) ∧
    (∀ q : Rat, m.ID = some q → q ≠ mathTrunc q → handleMessage c (.parsed m) = c) := by
  refine ⟨rfl, ?_, ?_, ?_, ?_⟩
  · intro h1 _
    exact handleMessage_id_none c m h1
  · intro h1 _
    exact handleMessage_id_none c m h1
  · intro q h1 h2
    simp [handleMessage, h1, h2]
  · intro q h1 h2
    simp [handleMessage, h1, h2]

/-- Closed instance of C6: a malformed payload, an empty-method
notification, an absent-params notification, a negative-ID response and a
fractional-ID response, each against a client with a pending request. -/
theorem C6_witness :
    (handleMessage pendingClient .malformed = pendingClient) ∧
    (handleMessage pendingClient
        (.parsed { ID := none, ntfn := { Method := "", Params := some [] },
                   resp := { Result := none, Error := none } }) = pendingClient) ∧
    (handleMessage pendingClient
        (.parsed { ID := none, ntfn := { Method := "ping", Params := none },
                   resp := { Result := none, Error := none } }) = pendingClient) ∧
    (handleMessage pendingClient
        (.parsed { ID := some (-3 : Rat), ntfn := { Method := "", Params := none },
                   resp := { Result := some "abc", Error := none } }) = pendingClient) ∧
    (handleMessage pendingClient
        (.parsed { ID := some sevenHalves, ntfn := { Method := "", Params := none },
                   resp := { Result := some "abc", Error := none } }) = pendingClient) :=
  ⟨(C6_handleMessage pendingClient
      { ID := none, ntfn := { Method := "", Params := some [] },
        resp := { Result := none, Error := none } }).1,
   (C6_handleMessage pendingClient _).2.1 rfl rfl,
   (C6_handleMessage pendingClient _).2.2.1 rfl rfl,
   (C6_handleMessage pendingClient _).2.2.2.1 (-3 : Rat) rfl (by decide),
   (C6_handleMessage pendingClient _).2.2.2.2 sevenHalves rfl (by decide)⟩

/-! ## C8 -/

theorem nextIDs_eq_range (c : Client) (k : Nat) (h : c.id + k < 2 ^ 64) :
    nextIDs c k = List.range' (c.id + 1) k := by
  induction k generalizing c with
  | zero => rfl
  | succ k ih =>
    have hmod : (c.id + 1) % 2 ^ 64 = c.id + 1 := Nat.mod_eq_of_lt (by omega)
    show ((c.id + 1) % 2 ^ 64) :: nextIDs { c with id := (c.id + 1) % 2 ^ 64 } k
        = List.range' (c.id + 1) (k + 1)
    rw [hmod]
    rw [ih { c with id := c.id + 1 } (by simpa using by omega)]
    rfl

/-- C8: `NextID` increments the counter and returns the new value (the
counter afterwards holds exactly the returned value), so successive calls
return strictly increasing, pairwise distinct integers as long as the
64-bit counter does not wrap. -/
theorem C8_NextID (c : Client) (k : Nat) (h : c.id + k < 2 ^ 64) :
    (NextID c).1 = (c.id + 1) % 2 ^ 64 ∧
    (NextID c).2.id = (NextID c).1 ∧
    nextIDs c k = List.range' (c.id + 1) k ∧
    List.Pairwise (· < ·) (nextIDs c k) ∧
    (nextIDs c k).Nodup := by
  refine ⟨rfl, rfl, nextIDs_eq_range c k h, ?_, ?_⟩
  · rw [nextIDs_eq_range c k h]
    exact List.pairwise_lt_range' _ _
  · rw [nextIDs_eq_range c k h]
    exact List.nodup_range' _ _

/-- Closed instance of C8: three successive calls on a fresh client. -/
theorem C8_witness :
    nextIDs (New postCfg) 3 = List.range' 1 3 ∧
    List.Pairwise (· < ·) (nextIDs (New postCfg) 3) ∧
    (nextIDs (New postCfg) 3).Nodup :=
  ⟨(C8_NextID (New postCfg) 3 (by decide)).2.2.1,
   (C8_NextID (New postCfg) 3 (by decide)).2.2.2.1,
   (C8_NextID (New postCfg) 3 (by decide)).2.2.2.2⟩

/-! ## C9 -/

/-- C9: in the HTTP POST send path, every transport-level failure is
delivered as the error of exactly one write to that request's response
channel and nothing escapes `handleSendPostMessage` (the registry, queue
and shutdown state are untouched); in particular, when the reply body does
not unmarshal as a JSON-RPC response, the delivered error carries the HTTP
status code and the raw response bytes. -/
theorem C9_handleSendPostMessage (c : Client) (d : sendPostDetails)
    (h : d.jReq.responseChan < c.chans.length) :
    (∀ out : httpOutcome,
      (handleSendPostMessage c d out).requestMap = c.requestMap ∧
      (handleSendPostMessage c d out).requestList = c.requestList ∧
      (handleSendPostMessage c d out).sendPostChan = c.sendPostChan ∧
      (handleSendPostMessage c d out).shutdownClosed = c.shutdownClosed) ∧
    (∀ e, chanWrites (handleSendPostMessage c d (.doFail e)) d.jReq.responseChan =
        chanWrites c d.jReq.responseChan ++ [{ result := none, err := some (.doErr e) }]) ∧
    (∀ e, chanWrites (handleSendPostMessage c d (.readFail e)) d.jReq.responseChan =
        chanWrites c d.jReq.responseChan ++ [{ result := none, err := some (.readBodyErr e) }]) ∧
    (∀ status body,
      chanWrites (handleSendPostMessage c d (.reply status body none)) d.jReq.responseChan =
        chanWrites c d.jReq.responseChan ++ [{ result := none, err := some (.statusErr status body) }]) ∧
    (∀ status body r,
      chanWrites (handleSendPostMessage c d (.reply status body (some r))) d.jReq.responseChan =
        chanWrites c d.jReq.responseChan ++
          [{ result := (rawResponse.result r).1, err := (rawResponse.result r).2 }]) := by
  refine ⟨?_, ?_, ?_, ?_, ?_⟩
  · intro out
    cases out with
    | doFail e => simp [handleSendPostMessage]
    | readFail e => simp [handleSendPostMessage]
    | reply st bd pr => cases pr <;> simp [handleSendPostMessage]
  · intro e
    simp [handleSendPostMessage, chanWrites_writeChan_self _ _ _ h]
  · intro e
    simp [handleSendPostMessage, chanWrites_writeChan_self _ _ _ h]
  · intro status body
    simp [handleSendPostMessage, chanWrites_writeChan_self _ _ _ h]
  · intro status body r
    rcases hres : rawResponse.result r with ⟨res, err⟩
    simp [handleSendPostMessage, hres, chanWrites_writeChan_self _ _ _ h]

/-- Closed instance of C9: an unparseable 500 reply delivers the status
code and raw body as the error of the single response. -/
theorem C9_witness :
    chanWrites
        (handleSendPostMessage (newChan (New postCfg)).2
          { httpReq := { url := "http://localhost:8334", body := "b",
                         contentType := "application/json", user := "u", pass := "p" },
            jReq := { id := 1, method := "getblockcount", marshalledJSON := "b",
                      responseChan := 0 } }
          (.reply 500 "Internal Server Error" none)) 0
      = [{ result := none, err := some (.statusErr 500 "Internal Server Error") }] := by
  have h := (C9_handleSendPostMessage (newChan (New postCfg)).2
    { httpReq := { url := "http://localhost:8334", body := "b",
                   contentType := "application/json", user := "u", pass := "p" },
      jReq := { id := 1, method := "getblockcount", marshalledJSON := "b",
                responseChan := 0 } }
    (by decide)).2.2.2.1 500 "Internal Server Error"
  simpa using h

/-! ## Unfolding equations for `sendCmd` -/

theorem sendCmd_ok_eq (c : Client) (cmd : Cmd) (method mj : String)
    (hm : cmd.methodRes = .ok method)
    (hmar : cmd.marshalRes ((c.id + 1) % 2 ^ 64) = .ok mj) :
    sendCmd c cmd =
      (c.chans.length,
       sendRequest { c with id := (c.id + 1) % 2 ^ 64, chans := c.chans ++ [[]] }
         { id := (c.id + 1) % 2 ^ 64, method := method, marshalledJSON := mj,
           responseChan := c.chans.length }) := by
  simp only [sendCmd, hm, NextID, hmar, newChan]

theorem sendCmd_methodErr_eq (c : Client) (cmd : Cmd) (e : String)
    (hm : cmd.methodRes = .error e) :
    sendCmd c cmd = newFutureError c (.methodErr e) := by
  simp only [sendCmd, hm]

theorem sendCmd_marshalErr_eq (c : Client) (cmd : Cmd) (method e : String)
    (hm : cmd.methodRes = .ok method)
    (hmar : cmd.marshalRes ((c.id + 1) % 2 ^ 64) = .error e) :
    sendCmd c cmd = newFutureError { c with id := (c.id + 1) % 2 ^ 64 } (.marshalErr e) := by
  simp only [sendCmd, hm, NextID, hmar]

/-! ## C10 -/

/-- C10: with `HTTPPostMode` false, `sendRequest` returns without
dispatching or mutating anything, `start` spawns no handler goroutine, and
the future returned by a successfully marshalled `sendCmd` is a fresh
channel that no send path has written: the whole state change of `sendCmd`
is the counter bump and the new empty channel, and a receive on that
future blocks (no value is available for it). -/
theorem C10_sendRequest_ws (c : Client) (cmd : Cmd) (jReq : jsonRequest)
    (method mj : String)
    (hws : c.config.HTTPPostMode = false)
    (hm : cmd.methodRes = .ok method)
    (hmar : cmd.marshalRes ((c.id + 1) % 2 ^ 64) = .ok mj) :
    sendRequest c jReq = c ∧
    start c = (c, []) ∧
    (sendCmd c cmd).1 = c.chans.length ∧
    (sendCmd c cmd).2 = { c with id := (c.id + 1) % 2 ^ 64, chans := c.chans ++ [[]] } ∧
    chanWrites (sendCmd c cmd).2 (sendCmd c cmd).1 = [] ∧
    receiveFuture (sendCmd c cmd).2 (sendCmd c cmd).1 = none := by
  have hkey := sendCmd_ok_eq c cmd method mj hm hmar
  have hsr : sendRequest { c with id := (c.id + 1) % 2 ^ 64, chans := c.chans ++ [[]] }
      { id := (c.id + 1) % 2 ^ 64, method := method, marshalledJSON := mj,
        responseChan := c.chans.length }
      = { c with id := (c.id + 1) % 2 ^ 64, chans := c.chans ++ [[]] } := by
    simp only [sendRequest]
    rw [if_neg]
    simp [hws]
  rw [hsr] at hkey
  have hw : chanWrites { c with id := (c.id + 1) % 2 ^ 64, chans := c.chans ++ [[]] }
      c.chans.length = [] := by
    show ((c.chans ++ [[]]).get? c.chans.length).getD [] = []
    rw [List.get?_concat_length]
    rfl
  refine ⟨by simp [sendRequest, hws], by simp [start, hws], ?_, ?_, ?_, ?_⟩
  · rw [hkey]
  · rw [hkey]
  · rw [hkey]
    exact hw
  · rw [receiveFuture, hkey]
    rw [hw]
    rfl

/-- Closed instance of C10 on a fresh websocket-mode client. -/
theorem C10_witness :
    (sendCmd (New wsCfg) blockCountCmd).2 = { New wsCfg with id := 1, chans := [[]] } ∧
    receiveFuture (sendCmd (New wsCfg) blockCountCmd).2 (sendCmd (New wsCfg) blockCountCmd).1
      = none := by
  have h := C10_sendRequest_ws (New wsCfg) blockCountCmd
    { id := 1, method := "getblockcount", marshalledJSON := "1", responseChan := 0 }
    "getblockcount" "1" rfl rfl rfl
  exact ⟨by simpa using h.2.2.2.1, h.2.2.2.2.2⟩

/-! ## Lemmas about the shutdown delivery loops -/

theorem deliverShutdownErr_requestList (l : List Element) (c : Client) :
    (deliverShutdownErr l c).requestList = c.requestList := by
  induction l generalizing c with
  | nil => rfl
  | cons el rest ih => simp [deliverShutdownErr, ih]

theorem deliverShutdownErr_requestMap (l : List Element) (c : Client) :
    (deliverShutdownErr l c).requestMap = c.requestMap := by
  induction l generalizing c with
  | nil => rfl
  | cons el rest ih => simp [deliverShutdownErr, ih]

theorem deliverShutdownErr_shutdownClosed (l : List Element) (c : Client) :
    (deliverShutdownErr l c).shutdownClosed = c.shutdownClosed := by
  induction l generalizing c with
  | nil => rfl
  | cons el rest ih => simp [deliverShutdownErr, ih]

theorem deliverShutdownErr_sendPostChan (l : List Element) (c : Client) :
    (deliverShutdownErr l c).sendPostChan = c.sendPostChan := by
  induction l generalizing c with
  | nil => rfl
  | cons el rest ih => simp [deliverShutdownErr, ih]

theorem deliverShutdownErr_chans_length (l : List Element) (c : Client) :
    (deliverShutdownErr l c).chans.length = c.chans.length := by
  induction l generalizing c with
  | nil => rfl
  | cons el rest ih => simp [deliverShutdownErr, ih]

theorem deliverShutdownErr_chanWrites (l : List Element) (c : Client) (cid : Nat)
    (hin : ∀ el ∈ l, el.2.responseChan < c.chans.length) :
    chanWrites (deliverShutdownErr l c) cid =
      chanWrites c cid ++
        List.replicate (l.countP (fun el => el.2.responseChan == cid)) shutdownResponse := by
  induction l generalizing c with
  | nil => simp [deliverShutdownErr]
  | cons el rest ih =>
    have hel : el.2.responseChan < c.chans.length := hin el (by simp)
    have hrest : ∀ e ∈ rest, e.2.responseChan <
        (writeChan c el.2.responseChan shutdownResponse).chans.length := by
      intro e he
      rw [writeChan_chans_length]
      exact hin e (by simp [he])
    show chanWrites
        (deliverShutdownErr rest (writeChan c el.2.responseChan shutdownResponse)) cid = _
    rw [ih _ hrest, List.countP_cons]
    by_cases hc : el.2.responseChan = cid
    · subst hc
      rw [chanWrites_writeChan_self _ _ _ hel]
      simp [List.replicate_succ]
    · rw [chanWrites_writeChan_ne _ _ _ _ (fun h2 => hc h2.symm)]
      simp [hc]

theorem drainPostQueue_requestList (l : List sendPostDetails) (c : Client) :
    (drainPostQueue l c).requestList = c.requestList := by
  induction l generalizing c with
  | nil => rfl
  | cons d rest ih => simp [drainPostQueue, ih]

theorem drainPostQueue_requestMap (l : List sendPostDetails) (c : Client) :
    (drainPostQueue l c).requestMap = c.requestMap := by
  induction l generalizing c with
  | nil => rfl
  | cons d rest ih => simp [drainPostQueue, ih]

theorem drainPostQueue_sendPostChan (l : List sendPostDetails) (c : Client) :
    (drainPostQueue l c).sendPostChan = c.sendPostChan := by
  induction l generalizing c with
  | nil => rfl
  | cons d rest ih => simp [drainPostQueue, ih]

theorem drainPostQueue_shutdownClosed (l : List sendPostDetails) (c : Client) :
    (drainPostQueue l c).shutdownClosed = c.shutdownClosed := by
  induction l generalizing c with
  | nil => rfl
  | cons d rest ih => simp [drainPostQueue, ih]

theorem drainPostQueue_chans_length (l : List sendPostDetails) (c : Client) :
    (drainPostQueue l c).chans.length = c.chans.length := by
  induction l generalizing c with
  | nil => rfl
  | cons d rest ih => simp [drainPostQueue, ih]

theorem drainPostQueue_chanWrites (l : List sendPostDetails) (c : Client) (cid : Nat)
    (hin : ∀ d ∈ l, d.jReq.responseChan < c.chans.length) :
    chanWrites (drainPostQueue l c) cid =
      chanWrites c cid ++
        List.replicate (l.countP (fun d => d.jReq.responseChan == cid)) shutdownResponse := by
  induction l generalizing c with
  | nil => simp [drainPostQueue]
  | cons d rest ih =>
    have hel : d.jReq.responseChan < c.chans.length := hin d (by simp)
    have hrest : ∀ e ∈ rest, e.jReq.responseChan <
        (writeChan c d.jReq.responseChan shutdownResponse).chans.length := by
      intro e he
      rw [writeChan_chans_length]
      exact hin e (by simp [he])
    show chanWrites
        (drainPostQueue rest (writeChan c d.jReq.responseChan shutdownResponse)) cid = _
    rw [ih _ hrest, List.countP_cons]
    by_cases hc : d.jReq.responseChan = cid
    · subst hc
      rw [chanWrites_writeChan_self _ _ _ hel]
      simp [List.replicate_succ]
    · rw [chanWrites_writeChan_ne _ _ _ _ (fun h2 => hc h2.symm)]
      simp [hc]

theorem Shutdown_closed (c : Client) (h : c.shutdownClosed = true) :
    Shutdown c = c := by
  simp [Shutdown, doShutdown, h]

theorem Shutdown_open_eq (c : Client) (h : c.shutdownClosed = false) :
    Shutdown c =
      removeAllRequests
        (deliverShutdownErr c.requestList { c with shutdownClosed := true }) := by
  simp [Shutdown, doShutdown, h]

/-! ## C3 -/

/-- C3: the first call to `Shutdown` closes the shutdown signal and
delivers `ErrClientShutdown` exactly once to the future of every request
pending in the registry at that moment (one write per pending request on
each referenced channel), after which both registry structures are empty;
a subsequent `Shutdown` call leaves the state entirely unchanged and
delivers nothing. -/
theorem C3_Shutdown (c : Client)
    (h : c.shutdownClosed = false)
    (hin : ∀ el ∈ c.requestList, el.2.responseChan < c.chans.length) :
    (Shutdown c).shutdownClosed = true ∧
    (Shutdown c).requestMap = [] ∧
    (Shutdown c).requestList = [] ∧
    (∀ cid, chanWrites (Shutdown c) cid =
      chanWrites c cid ++
        List.replicate (c.requestList.countP (fun el => el.2.responseChan == cid))
          shutdownResponse) ∧
    Shutdown (Shutdown c) = Shutdown c := by
  have heq := Shutdown_open_eq c h
  have hcl : (Shutdown c).shutdownClosed = true := by
    rw [heq]
    show (deliverShutdownErr c.requestList { c with shutdownClosed := true }).shutdownClosed = true
    rw [deliverShutdownErr_shutdownClosed]
  refine ⟨hcl, by rw [heq]; rfl, by rw [heq]; rfl, ?_, Shutdown_closed _ hcl⟩
  intro cid
  rw [heq]
  show chanWrites (deliverShutdownErr c.requestList { c with shutdownClosed := true }) cid = _
  exact deliverShutdownErr_chanWrites c.requestList { c with shutdownClosed := true } cid hin

/-- Closed instance of C3: shutting down a client with one pending
request delivers one `ErrClientShutdown`, empties the registry, and a
second `Shutdown` is a no-op. -/
theorem C3_witness :
    (Shutdown pendingClient).requestMap = [] ∧
    (Shutdown pendingClient).requestList = [] ∧
    chanWrites (Shutdown pendingClient) 0 = [shutdownResponse] ∧
    Shutdown (Shutdown pendingClient) = Shutdown pendingClient := by
  have h := C3_Shutdown pendingClient rfl (by decide)
  refine ⟨h.2.1, h.2.2.1, ?_, h.2.2.2.2⟩
  rw [h.2.2.2.1 0]
  rfl

/-! ## Lemmas about request removal and response delivery -/

theorem removeRequest_hit (c : Client) (rid : Nat) (el : Element)
    (h : c.requestMap.lookup rid = some el) :
    removeRequest c rid =
      (some el.2,
        { c with requestMap := c.requestMap.filter (fun p => p.1 ≠ rid),
                 requestList := c.requestList.filter (fun e => e.1 ≠ el.1) }) := by
  simp only [removeRequest, h]

theorem removeRequest_miss (c : Client) (rid : Nat)
    (h : c.requestMap.lookup rid = none) :
    removeRequest c rid = (none, c) := by
  simp only [removeRequest, h]

theorem lookup_filter_ne {β : Type} (l : List (Nat × β)) (rid : Nat) :
    (l.filter (fun p => p.1 ≠ rid)).lookup rid = none := by
  induction l with
  | nil => rfl
  | cons p rest ih =>
    by_cases h : p.1 = rid
    · simpa [List.filter, h] using ih
    · have hb : decide (p.1 ≠ rid) = true := by simp [h]
      have hb2 : (rid == p.1) = false := by simp [Ne.symm h]
      rw [List.filter, hb, List.lookup, hb2]
      exact ih

theorem handleMessage_response_hit (c : Client) (m : inMessage) (q : Rat) (el : Element)
    (hID : m.ID = some q) (hq0 : ¬ q < 0) (hqi : q = mathTrunc q)
    (hmap : c.requestMap.lookup (ratToUint64 q) = some el) :
    handleMessage c (.parsed m) =
      writeChan
        { c with requestMap := c.requestMap.filter (fun p => p.1 ≠ ratToUint64 q),
                 requestList := c.requestList.filter (fun e => e.1 ≠ el.1) }
        el.2.responseChan
        { result := (rawResponse.result m.resp).1, err := (rawResponse.result m.resp).2 } := by
  have hguard : ¬ (q < 0 ∨ q ≠ mathTrunc q) := by
    rw [not_or]
    exact ⟨hq0, by simpa using hqi⟩
  rcases hres : rawResponse.result m.resp with ⟨a, b⟩
  simp only [handleMessage, hID, if_neg hguard, removeRequest_hit c _ el hmap, hres]

/-! ## C7 -/

/-- C7: a non-null `error` field takes precedence over the `result` field:
`rawResponse.result` returns the structured RPC error and no bytes
whenever `Error` is non-nil and the raw result bytes with no error
otherwise, so a matched reply carrying both a result and a non-null error
resolves the future to the structured error, not the result bytes. -/
theorem C7_errorPriority (c : Client) (m : inMessage) (q : Rat) (el : Element) (e : RPCError)
    (hID : m.ID = some q) (hq0 : ¬ q < 0) (hqi : q = mathTrunc q)
    (hmap : c.requestMap.lookup (ratToUint64 q) = some el)
    (hchan : el.2.responseChan < c.chans.length)
    (herr : m.resp.Error = some e) :
    (∀ (rr : rawResponse) (e0 : RPCError), rr.Error = some e0 →
      rawResponse.result rr = (none, some (.rpcError e0.code e0.message))) ∧
    (∀ rr : rawResponse, rr.Error = none →
      rawResponse.result rr = (rr.Result, none)) ∧
    chanWrites (handleMessage c (.parsed m)) el.2.responseChan =
      chanWrites c el.2.responseChan ++
        [{ result := none, err := some (.rpcError e.code e.message) }] := by
  refine ⟨?_, ?_, ?_⟩
  · intro rr e0 h0
    simp [rawResponse.result, h0]
  · intro rr h0
    simp [rawResponse.result, h0]
  · rw [handleMessage_response_hit c m q el hID hq0 hqi hmap]
    have hres : rawResponse.result m.resp = (none, some (.rpcError e.code e.message)) := by
      simp [rawResponse.result, herr]
    rw [hres]
    exact chanWrites_writeChan_self _ _ _ hchan

/-- Closed instance of C7: the spec's error-priority scenario, a reply
with id 7 carrying both a result and a structured error. -/
theorem C7_witness :
    chanWrites
        (handleMessage pendingClient
          (.parsed { ID := some (7 : Rat), ntfn := { Method := "", Params := none },
                     resp := { Result := some "abc",
                               Error := some { code := 1, message := "boom" } } })) 0
      = [{ result := none, err := some (.rpcError 1 "boom") }] := by
  have h := (C7_errorPriority pendingClient
    { ID := some (7 : Rat), ntfn := { Method := "", Params := none },
      resp := { Result := some "abc", Error := some { code := 1, message := "boom" } } }
    (7 : Rat) (0, { id := 7, method := "getblockcount", marshalledJSON := "j", responseChan := 0 })
    { code := 1, message := "boom" }
    rfl (by decide) (by decide) (by decide) (by decide) rfl).2.2
  simpa using h

/-! ## C1 -/

/-- C1 counterexample: on a fresh HTTP-POST-mode client and a command
whose method resolves and whose marshalling succeeds, `sendCmd` assigns
ID 1 but registers nothing: afterwards the registry does not contain the
ID (both structures are empty), contradicting the claim that `sendCmd`
registers the request under the obtained ID before returning. -/
theorem C1_counterexample :
    blockCountCmd.methodRes = .ok "getblockcount" ∧
    blockCountCmd.marshalRes 1 = .ok "1" ∧
    (sendCmd (New postCfg) blockCountCmd).2.id = 1 ∧
    (sendCmd (New postCfg) blockCountCmd).2.requestMap.lookup 1 = none ∧
    (sendCmd (New postCfg) blockCountCmd).2.requestMap = [] ∧
    (sendCmd (New postCfg) blockCountCmd).2.requestList = [] :=
  ⟨rfl, rfl, rfl, rfl, rfl, rfl⟩

theorem addRequest_open_eq (c : Client) (j : jsonRequest)
    (h : c.shutdownClosed = false) :
    addRequest c j =
      (none,
        { c with
          requestList := c.requestList ++ [(c.nextElem, j)]
          requestMap := (j.id, (c.nextElem, j)) :: c.requestMap.filter (fun p => p.1 ≠ j.id)
          nextElem := c.nextElem + 1 }) := by
  simp [addRequest, h]

/-- C1 (amended): `sendCmd` obtains a fresh ID and returns a fresh,
unwritten future without registering anything in the registry; when the
produced request is additionally registered via `addRequest` (the
registration path that this snapshot declares but never calls from
`sendCmd`), feeding `handleMessage` a well-formed reply carrying that ID
delivers the result bytes into that future and removes the entry, so that
afterwards the registry no longer contains the ID. -/
theorem C1_roundTrip (c : Client) (cmd : Cmd) (method mj s : String) (m : inMessage)
    (nid cid : Nat)
    (hnid : nid = (c.id + 1) % 2 ^ 64)
    (hcid : cid = c.chans.length)
    (hws : c.config.HTTPPostMode = false)
    (hsd : c.shutdownClosed = false)
    (hm : cmd.methodRes = .ok method)
    (hmar : cmd.marshalRes ((c.id + 1) % 2 ^ 64) = .ok mj)
    (hfreshI : ∀ el ∈ c.requestList, el.2.id ≠ nid)
    (hID : m.ID = some ((nid : Nat) : Rat))
    (hresp : m.resp.Result = some s) (herr : m.resp.Error = none) :
    (sendCmd c cmd).1 = cid ∧
    (sendCmd c cmd).2.requestMap = c.requestMap ∧
    (addRequest (sendCmd c cmd).2
        { id := nid, method := method, marshalledJSON := mj, responseChan := cid }).1 = none ∧
    chanWrites
        (handleMessage
          (addRequest (sendCmd c cmd).2
            { id := nid, method := method, marshalledJSON := mj, responseChan := cid }).2
          (.parsed m)) cid
      = [{ result := some s, err := none }] ∧
    receiveFuture
        (handleMessage
          (addRequest (sendCmd c cmd).2
            { id := nid, method := method, marshalledJSON := mj, responseChan := cid }).2
          (.parsed m)) cid
      = some { result := some s, err := none } ∧
    (handleMessage
        (addRequest (sendCmd c cmd).2
          { id := nid, method := method, marshalledJSON := mj, responseChan := cid }).2
        (.parsed m)).requestMap.lookup nid = none ∧
    (∀ el ∈ (handleMessage
        (addRequest (sendCmd c cmd).2
          { id := nid, method := method, marshalledJSON := mj, responseChan := cid }).2
        (.parsed m)).requestList, el.2.id ≠ nid) := by
  have hlt : nid < 2 ^ 64 := by
    rw [hnid]
    exact Nat.mod_lt _ (by norm_num)
  have hsend : sendCmd c cmd =
      (cid, { c with id := nid, chans := c.chans ++ [[]] }) := by
    rw [sendCmd_ok_eq c cmd method mj hm hmar, hnid, hcid]
    congr 1
    simp [sendRequest, hws]
  have hadd : addRequest (sendCmd c cmd).2
      { id := nid, method := method, marshalledJSON := mj, responseChan := cid }
      = (none,
        { c with
          id := nid
          chans := c.chans ++ [[]]
          requestList := c.requestList ++
            [(c.nextElem, { id := nid, method := method, marshalledJSON := mj,
                            responseChan := cid })]
          requestMap := (nid, (c.nextElem,
              { id := nid, method := method, marshalledJSON := mj, responseChan := cid }))
            :: c.requestMap.filter (fun p => p.1 ≠ nid)
          nextElem := c.nextElem + 1 }) := by
    rw [hsend]
    exact addRequest_open_eq _ _ hsd
  have hmap : (addRequest (sendCmd c cmd).2
      { id := nid, method := method, marshalledJSON := mj, responseChan := cid }).2.requestMap.lookup
        (ratToUint64 ((nid : Nat) : Rat))
      = some (c.nextElem,
          { id := nid, method := method, marshalledJSON := mj, responseChan := cid }) := by
    rw [ratToUint64_natCast nid hlt, hadd]
    exact List.lookup_cons_self
  have hhm := handleMessage_response_hit
    (addRequest (sendCmd c cmd).2
      { id := nid, method := method, marshalledJSON := mj, responseChan := cid }).2
    m ((nid : Nat) : Rat)
    (c.nextElem, { id := nid, method := method, marshalledJSON := mj, responseChan := cid })
    hID (by simp) (mathTrunc_natCast nid).symm hmap
  have hres : rawResponse.result m.resp = (some s, none) := by
    simp [rawResponse.result, herr, hresp]
  rw [hres] at hhm
  have hhm2 : handleMessage
      (addRequest (sendCmd c cmd).2
        { id := nid, method := method, marshalledJSON := mj, responseChan := cid }).2
      (.parsed m)
      = writeChan
        { (addRequest (sendCmd c cmd).2
            { id := nid, method := method, marshalledJSON := mj, responseChan := cid }).2 with
          requestMap := ((addRequest (sendCmd c cmd).2
            { id := nid, method := method, marshalledJSON := mj, responseChan := cid }).2).requestMap.filter
              (fun p => p.1 ≠ ratToUint64 ((nid : Nat) : Rat))
          requestList := ((addRequest (sendCmd c cmd).2
            { id := nid, method := method, marshalledJSON := mj, responseChan := cid }).2).requestList.filter
              (fun e => e.1 ≠ c.nextElem) }
        cid { result := some s, err := none } := hhm
  have hcidlt : cid < ({ (addRequest (sendCmd c cmd).2
      { id := nid, method := method, marshalledJSON := mj, responseChan := cid }).2 with
        requestMap := ((addRequest (sendCmd c cmd).2
          { id := nid, method := method, marshalledJSON := mj, responseChan := cid }).2).requestMap.filter
            (fun p => p.1 ≠ ratToUint64 ((nid : Nat) : Rat))
        requestList := ((addRequest (sendCmd c cmd).2
          { id := nid, method := method, marshalledJSON := mj, responseChan := cid }).2).requestList.filter
            (fun e => e.1 ≠ c.nextElem) } : Client).chans.length := by
    show cid < ((addRequest (sendCmd c cmd).2
      { id := nid, method := method, marshalledJSON := mj, responseChan := cid }).2).chans.length
    rw [hadd, hcid]
    simp
  have hwempty : chanWrites
      { (addRequest (sendCmd c cmd).2
          { id := nid, method := method, marshalledJSON := mj, responseChan := cid }).2 with
        requestMap := ((addRequest (sendCmd c cmd).2
          { id := nid, method := method, marshalledJSON := mj, responseChan := cid }).2).requestMap.filter
            (fun p => p.1 ≠ ratToUint64 ((nid : Nat) : Rat))
        requestList := ((addRequest (sendCmd c cmd).2
          { id := nid, method := method, marshalledJSON := mj, responseChan := cid }).2).requestList.filter
            (fun e => e.1 ≠ c.nextElem) } cid = [] := by
    show chanWrites ((addRequest (sendCmd c cmd).2
      { id := nid, method := method, marshalledJSON := mj, responseChan := cid }).2) cid = []
    rw [hadd, hcid]
    show ((c.chans ++ [[]]).get? c.chans.length).getD [] = []
    rw [List.get?_concat_length]
    rfl
  refine ⟨by rw [hsend], by rw [hsend], by rw [hadd], ?_, ?_, ?_, ?_⟩
  · rw [hhm2]
    rw [chanWrites_writeChan_self _ _ _ hcidlt, hwempty]
    rfl
  · rw [receiveFuture, hhm2, chanWrites_writeChan_self _ _ _ hcidlt, hwempty]
    rfl
  · rw [hhm2]
    rw [writeChan_requestMap]
    rw [ratToUint64_natCast nid hlt]
    exact lookup_filter_ne _ nid
  · intro el hel
    rw [hhm2, writeChan_requestList] at hel
    have hel2 := List.mem_filter.mp hel
    rw [hadd] at hel2
    rcases List.mem_append.mp hel2.1 with hmem | hmem
    · exact hfreshI el hmem
    · exfalso
      have h1 : el.1 = c.nextElem := by
        simp only [List.mem_singleton] at hmem
        rw [hmem]
      have h2 := hel2.2
      simp [h1] at h2

/-- Closed instance of the amended C1: the round-trip scenario on a fresh
websocket-mode client; the reply delivers the result bytes and the
registry no longer contains the ID. -/
theorem C1_witness :
    chanWrites
        (handleMessage
          (addRequest (sendCmd (New wsCfg) blockCountCmd).2
            { id := 1, method := "getblockcount", marshalledJSON := "1", responseChan := 0 }).2
          (.parsed { ID := some ((1 : Nat) : Rat), ntfn := { Method := "", Params := none },
                     resp := { Result := some "abc", Error := none } })) 0
      = [{ result := some "abc", err := none }] ∧
    (handleMessage
        (addRequest (sendCmd (New wsCfg) blockCountCmd).2
          { id := 1, method := "getblockcount", marshalledJSON := "1", responseChan := 0 }).2
        (.parsed { ID := some ((1 : Nat) : Rat), ntfn := { Method := "", Params := none },
                   resp := { Result := some "abc", Error := none } })).requestMap.lookup 1
      = none := by
  have h := C1_roundTrip (New wsCfg) blockCountCmd "getblockcount" "1" "abc"
    { ID := some ((1 : Nat) : Rat), ntfn := { Method := "", Params := none },
      resp := { Result := some "abc", Error := none } }
    1 0 (by decide) rfl rfl rfl rfl rfl (by decide) rfl rfl rfl
  exact ⟨h.2.2.2.1, h.2.2.2.2.2.1⟩

/-! ## C4 -/

/-- C4: after shutdown has begun, a `sendCmd` in HTTP POST mode (with the
external library succeeding on the command) returns a future that already
carries `ErrClientShutdown`, adds nothing to the registry, and still
enqueues the request onto the post queue; the handler drain path then
writes a further `ErrClientShutdown` response for the queued entry. -/
theorem C4_sendCmd_after_shutdown (c : Client) (cmd : Cmd) (method mj : String)
    (hsd : c.shutdownClosed = true)
    (hpm : c.config.HTTPPostMode = true)
    (hurl : c.config.urlOK = true)
    (hm : cmd.methodRes = .ok method)
    (hmar : cmd.marshalRes ((c.id + 1) % 2 ^ 64) = .ok mj)
    (hq : ∀ d ∈ c.sendPostChan, d.jReq.responseChan < c.chans.length) :
    (sendCmd c cmd).1 = c.chans.length ∧
    chanWrites (sendCmd c cmd).2 c.chans.length = [shutdownResponse] ∧
    receiveFuture (sendCmd c cmd).2 c.chans.length = some shutdownResponse ∧
    (sendCmd c cmd).2.requestMap = c.requestMap ∧
    (sendCmd c cmd).2.requestList = c.requestList ∧
    (sendCmd c cmd).2.sendPostChan = c.sendPostChan ++
      [{ httpReq := { url := (if c.config.DisableTLS then "http" else "https")
                        ++ "://" ++ c.config.Host,
                      body := mj, contentType := "application/json",
                      user := c.config.User, pass := c.config.Pass },
         jReq := { id := (c.id + 1) % 2 ^ 64, method := method, marshalledJSON := mj,
                   responseChan := c.chans.length } }] ∧
    chanWrites (sendPostHandlerDrain (sendCmd c cmd).2) c.chans.length
      = [shutdownResponse, shutdownResponse] := by
  have hsend2 : (sendCmd c cmd).2 =
      { writeChan { c with id := (c.id + 1) % 2 ^ 64, chans := c.chans ++ [[]] }
          c.chans.length shutdownResponse with
        sendPostChan := c.sendPostChan ++
          [{ httpReq := { url := (if c.config.DisableTLS then "http" else "https")
                            ++ "://" ++ c.config.Host,
                          body := mj, contentType := "application/json",
                          user := c.config.User, pass := c.config.Pass },
             jReq := { id := (c.id + 1) % 2 ^ 64, method := method, marshalledJSON := mj,
                       responseChan := c.chans.length } }] } := by
    rw [sendCmd_ok_eq c cmd method mj hm hmar]
    show sendRequest _ _ = _
    simp [sendRequest, sendPost, sendPostRequest, hpm, hurl, hsd, shutdownResponse]
  have hfresh : chanWrites { c with id := (c.id + 1) % 2 ^ 64, chans := c.chans ++ [[]] }
      c.chans.length = [] := by
    show ((c.chans ++ [[]]).get? c.chans.length).getD [] = []
    rw [List.get?_concat_length]
    rfl
  have hlt : c.chans.length <
      ({ c with id := (c.id + 1) % 2 ^ 64, chans := c.chans ++ [[]] } : Client).chans.length := by
    simp
  have hw1 : chanWrites (sendCmd c cmd).2 c.chans.length = [shutdownResponse] := by
    rw [hsend2]
    show chanWrites (writeChan { c with id := (c.id + 1) % 2 ^ 64, chans := c.chans ++ [[]] }
      c.chans.length shutdownResponse) c.chans.length = _
    rw [chanWrites_writeChan_self _ _ _ hlt, hfresh]
    rfl
  refine ⟨?_, hw1, ?_, ?_, ?_, ?_, ?_⟩
  · rw [sendCmd_ok_eq c cmd method mj hm hmar]
  · rw [receiveFuture, hw1]
    rfl
  · rw [hsend2]
    rfl
  · rw [hsend2]
    rfl
  · rw [hsend2]
  · have hwB : chanWrites { (sendCmd c cmd).2 with sendPostChan := [] } c.chans.length
        = [shutdownResponse] := hw1
    have hlenB : ({ (sendCmd c cmd).2 with sendPostChan := [] } : Client).chans.length
        = c.chans.length + 1 := by
      rw [hsend2]
      show (writeChan { c with id := (c.id + 1) % 2 ^ 64, chans := c.chans ++ [[]] }
        c.chans.length shutdownResponse).chans.length = _
      rw [writeChan_chans_length]
      simp
    have hqB : (sendCmd c cmd).2.sendPostChan = c.sendPostChan ++
        [{ httpReq := { url := (if c.config.DisableTLS then "http" else "https")
                          ++ "://" ++ c.config.Host,
                        body := mj, contentType := "application/json",
                        user := c.config.User, pass := c.config.Pass },
           jReq := { id := (c.id + 1) % 2 ^ 64, method := method, marshalledJSON := mj,
                     responseChan := c.chans.length } }] := by
      rw [hsend2]
    have hin : ∀ d ∈ (sendCmd c cmd).2.sendPostChan,
        d.jReq.responseChan <
          ({ (sendCmd c cmd).2 with sendPostChan := [] } : Client).chans.length := by
      rw [hqB, hlenB]
      intro d hd
      rcases List.mem_append.mp hd with hmem | hmem
      · exact Nat.lt_succ_of_lt (hq d hmem)
      · simp only [List.mem_singleton] at hmem
        rw [hmem]
        exact Nat.lt_succ_self _
    show chanWrites
        (drainPostQueue (sendCmd c cmd).2.sendPostChan
          { (sendCmd c cmd).2 with sendPostChan := [] }) c.chans.length
      = [shutdownResponse, shutdownResponse]
    rw [drainPostQueue_chanWrites _ _ _ hin, hwB, hqB]
    have hz : c.sendPostChan.countP
        (fun d => d.jReq.responseChan == c.chans.length) = 0 := by
      refine List.countP_eq_zero.mpr ?_
      intro d hd
      simp only [beq_iff_eq]
      exact Nat.ne_of_lt (hq d hd)
    rw [List.countP_append, hz]
    simp

/-- Closed instance of C4 on a freshly shut-down POST-mode client. -/
theorem C4_witness :
    chanWrites (sendCmd (Shutdown (New postCfg)) blockCountCmd).2 0 = [shutdownResponse] ∧
    (sendCmd (Shutdown (New postCfg)) blockCountCmd).2.requestMap = [] ∧
    chanWrites (sendPostHandlerDrain (sendCmd (Shutdown (New postCfg)) blockCountCmd).2) 0
      = [shutdownResponse, shutdownResponse] := by
  have h := C4_sendCmd_after_shutdown (Shutdown (New postCfg)) blockCountCmd
    "getblockcount" "1" rfl rfl rfl rfl rfl (by decide)
  exact ⟨h.2.1, h.2.2.2.1, h.2.2.2.2.2.2⟩

/-! ## C2 -/

/-- C2 counterexample: after `Shutdown`, a single `sendCmd` followed by
the `sendPostHandler` cleanup drain performs two writes to the same
single-slot response channel — the post-shutdown short-circuit write in
`sendPostRequest` and the drain write — so the at-most-once write
property fails over this operation sequence. -/
theorem C2_counterexample :
    (chanWrites
        (sendPostHandlerDrain (sendCmd (Shutdown (New postCfg)) blockCountCmd).2)
        (sendCmd (Shutdown (New postCfg)) blockCountCmd).1).length = 2 := rfl

theorem lookup_mem {β : Type _} (l : List (Nat × β)) (k : Nat) (b : β)
    (h : l.lookup k = some b) : (k, b) ∈ l := by
  induction l with
  | nil => cases h
  | cons p rest ih =>
    rw [List.lookup] at h
    by_cases hk : (k == p.1) = true
    · rw [hk] at h
      have hp : p.2 = b := by
        injection h
      have hkp : k = p.1 := by
        simpa using hk
      have hpair : (k, b) = p := by
        rw [hkp, ← hp]
      rw [hpair]
      exact List.mem_cons_self _ _
    · rw [Bool.not_eq_true] at hk
      rw [hk] at h
      exact List.mem_cons_of_mem _ (ih h)

theorem filter_ne_middle (l1 l2 : List Element) (el : Element)
    (hnd : ((l1 ++ el :: l2).map Prod.fst).Nodup) :
    (l1 ++ el :: l2).filter (fun q => q.1 ≠ el.1) = l1 ++ l2 := by
  rw [List.map_append, List.map_cons] at hnd
  rw [List.nodup_append] at hnd
  obtain ⟨hn1, hn2, hdisj⟩ := hnd
  have h1 : ∀ q ∈ l1, q.1 ≠ el.1 := by
    intro q hq heq
    exact hdisj (List.mem_map_of_mem Prod.fst hq) (by rw [heq]; exact List.mem_cons_self _ _)
  have h2 : ∀ q ∈ l2, q.1 ≠ el.1 := by
    intro q hq heq
    have := (List.nodup_cons.mp hn2).1
    exact this (by rw [← heq]; exact List.mem_map_of_mem Prod.fst hq)
  rw [List.filter_append, List.filter_cons]
  have hself : ¬ (decide (el.1 ≠ el.1) = true) := by simp
  rw [if_neg hself]
  rw [List.filter_eq_self.mpr (by intro q hq; simpa using h1 q hq),
      List.filter_eq_self.mpr (by intro q hq; simpa using h2 q hq)]

theorem listRefs_zero_of_oob (c : Client) (cid : Nat)
    (h1 : ∀ el ∈ c.requestList, el.2.responseChan < c.chans.length)
    (h : c.chans.length ≤ cid) : listRefs c cid = 0 := by
  refine List.countP_eq_zero.mpr ?_
  intro el hel
  simp only [beq_iff_eq]
  exact Nat.ne_of_lt (Nat.lt_of_lt_of_le (h1 el hel) h)

theorem queueRefs_zero_of_oob (c : Client) (cid : Nat)
    (h2 : ∀ d ∈ c.sendPostChan, d.jReq.responseChan < c.chans.length)
    (h : c.chans.length ≤ cid) : queueRefs c cid = 0 := by
  refine List.countP_eq_zero.mpr ?_
  intro d hd
  simp only [beq_iff_eq]
  exact Nat.ne_of_lt (Nat.lt_of_lt_of_le (h2 d hd) h)

theorem chanWrites_extend (c : Client) (cid : Nat) :
    chanWrites { c with chans := c.chans ++ [[]] } cid = chanWrites c cid := by
  rcases Nat.lt_trichotomy cid c.chans.length with h | h | h
  · show ((c.chans ++ [[]]).get? cid).getD [] = _
    rw [List.get?_append h]
    rfl
  · rw [h]
    show ((c.chans ++ [[]]).get? c.chans.length).getD []
        = (c.chans.get? c.chans.length).getD []
    rw [List.get?_concat_length, List.get?_len_le (Nat.le_refl _)]
    rfl
  · show ((c.chans ++ [[]]).get? cid).getD [] = _
    rw [List.get?_len_le (by simp; omega)]
    rw [chanWrites_oob c cid (Nat.le_of_lt h)]
    rfl

/-- The invariant holds for a freshly constructed client. -/
theorem ClientInv_New (cfg : ConnConfig) : ClientInv (New cfg) := by
  refine ⟨?_, ?_, ?_, ?_, ?_, ?_, ?_⟩
  · intro x hx
    cases hx
  · intro x hx
    cases hx
  · intro x hx
    cases hx
  · intro x hx
    cases hx
  · exact List.nodup_nil
  · intro p1 hp1
    cases hp1
  · intro cid
    exact Nat.zero_le 1

/-- Extending the channel store with a fresh empty channel preserves the
invariant. -/
theorem ClientInv_extend (c : Client) (h : ClientInv c) :
    ClientInv { c with chans := c.chans ++ [[]] } := by
  obtain ⟨h1, h2, h3, h4, h5, h6, h7⟩ := h
  refine ⟨?_, ?_, h3, h4, h5, h6, ?_⟩
  · intro el hel
    simp only [List.length_append]
    exact Nat.lt_of_lt_of_le (h1 el hel) (by omega)
  · intro d hd
    simp only [List.length_append]
    exact Nat.lt_of_lt_of_le (h2 d hd) (by omega)
  · intro cid
    have hlr : listRefs { c with chans := c.chans ++ [[]] } cid = listRefs c cid := rfl
    have hqr : queueRefs { c with chans := c.chans ++ [[]] } cid = queueRefs c cid := rfl
    rw [hlr, hqr, chanWrites_extend]
    exact h7 cid

theorem ClientInv_writeNew (c : Client) (r : response) (h : ClientInv c) :
    ClientInv (writeChan { c with chans := c.chans ++ [[]] } c.chans.length r) := by
  obtain ⟨h1, h2, h3, h4, h5, h6, h7⟩ := h
  have hlen : (writeChan { c with chans := c.chans ++ [[]] } c.chans.length r).chans.length
      = c.chans.length + 1 := by
    rw [writeChan_chans_length]
    simp
  refine ⟨?_, ?_, h3, h4, h5, h6, ?_⟩
  · intro el hel
    rw [hlen]
    exact Nat.lt_succ_of_lt (h1 el hel)
  · intro d hd
    rw [hlen]
    exact Nat.lt_succ_of_lt (h2 d hd)
  · intro cid
    have hlr : listRefs (writeChan { c with chans := c.chans ++ [[]] } c.chans.length r) cid
        = listRefs c cid := rfl
    have hqr : queueRefs (writeChan { c with chans := c.chans ++ [[]] } c.chans.length r) cid
        = queueRefs c cid := rfl
    rw [hlr, hqr]
    by_cases hc : cid = c.chans.length
    · rw [hc]
      rw [chanWrites_writeChan_self _ _ _ (by simp), chanWrites_extend,
          chanWrites_oob c c.chans.length (Nat.le_refl _)]
      rw [hc] at *
      rw [listRefs_zero_of_oob c c.chans.length h1 (Nat.le_refl _),
          queueRefs_zero_of_oob c c.chans.length h2 (Nat.le_refl _)]
      simp
    · rw [chanWrites_writeChan_ne _ _ _ _ hc, chanWrites_extend]
      exact h7 cid

theorem ClientInv_enqueueNew (c : Client) (hr : httpRequest) (j : jsonRequest)
    (hj : j.responseChan = c.chans.length) (h : ClientInv c) :
    ClientInv { c with
      chans := c.chans ++ [[]]
      sendPostChan := c.sendPostChan ++ [{ httpReq := hr, jReq := j }] } := by
  obtain ⟨h1, h2, h3, h4, h5, h6, h7⟩ := h
  refine ⟨?_, ?_, h3, h4, h5, h6, ?_⟩
  · intro el hel
    simp only [List.length_append, List.length_singleton]
    exact Nat.lt_succ_of_lt (h1 el hel)
  · intro d hd
    simp only [List.length_append, List.length_singleton]
    rcases List.mem_append.mp hd with hm | hm
    · exact Nat.lt_succ_of_lt (h2 d hm)
    · simp only [List.mem_singleton] at hm
      rw [hm]
      show j.responseChan < c.chans.length + 1
      rw [hj]
      exact Nat.lt_succ_self _
  · intro cid
    have hw : chanWrites { c with
        chans := c.chans ++ [[]]
        sendPostChan := c.sendPostChan ++ [{ httpReq := hr, jReq := j }] } cid
        = chanWrites c cid := chanWrites_extend c cid
    have hlr : listRefs { c with
        chans := c.chans ++ [[]]
        sendPostChan := c.sendPostChan ++ [{ httpReq := hr, jReq := j }] } cid
        = listRefs c cid := rfl
    have hqr : queueRefs { c with
        chans := c.chans ++ [[]]
        sendPostChan := c.sendPostChan ++ [{ httpReq := hr, jReq := j }] } cid
        = queueRefs c cid + (if j.responseChan == cid then 1 else 0) := by
      show (c.sendPostChan ++ [({ httpReq := hr, jReq := j } : sendPostDetails)]).countP
          (fun d => d.jReq.responseChan == cid) = _
      rw [List.countP_append]
      simp [List.countP_cons, queueRefs, listRefs]
    rw [hw, hlr, hqr]
    by_cases hc : cid = c.chans.length
    · rw [hc] at *
      rw [chanWrites_oob c c.chans.length (Nat.le_refl _),
          listRefs_zero_of_oob c c.chans.length h1 (Nat.le_refl _),
          queueRefs_zero_of_oob c c.chans.length h2 (Nat.le_refl _)]
      simp [hj]
    · have hne : (j.responseChan == cid) = false := by
        simp only [beq_eq_false_iff_ne]
        rw [hj]
        exact fun heq => hc heq.symm
      simp only [hne, Bool.false_eq_true, if_false]
      have := h7 cid
      omega

theorem ClientInv_addRecord (c : Client) (j : jsonRequest)
    (hj : j.responseChan = c.chans.length) (h : ClientInv c) :
    ClientInv { c with
      chans := c.chans ++ [[]]
      requestList := c.requestList ++ [(c.nextElem, j)]
      requestMap := (j.id, (c.nextElem, j)) :: c.requestMap.filter (fun p => p.1 ≠ j.id)
      nextElem := c.nextElem + 1 } := by
  obtain ⟨h1, h2, h3, h4, h5, h6, h7⟩ := h
  refine ⟨?_, ?_, ?_, ?_, ?_, ?_, ?_⟩
  · intro el hel
    simp only [List.length_append, List.length_singleton]
    rcases List.mem_append.mp hel with hm | hm
    · exact Nat.lt_succ_of_lt (h1 el hm)
    · simp only [List.mem_singleton] at hm
      rw [hm]
      show j.responseChan < c.chans.length + 1
      rw [hj]
      exact Nat.lt_succ_self _
  · intro d hd
    simp only [List.length_append, List.length_singleton]
    exact Nat.lt_succ_of_lt (h2 d hd)
  · intro pr hpr
    rcases List.mem_cons.mp hpr with hm | hm
    · rw [hm]
      exact List.mem_append_right _ (List.mem_singleton.mpr rfl)
    · have hpr2 := (List.mem_filter.mp hm).1
      exact List.mem_append_left _ (h3 pr hpr2)
  · intro el hel
    rcases List.mem_append.mp hel with hm | hm
    · exact Nat.lt_succ_of_lt (h4 el hm)
    · simp only [List.mem_singleton] at hm
      rw [hm]
      exact Nat.lt_succ_self _
  · rw [List.map_append, List.nodup_append]
    refine ⟨h5, by simp, ?_⟩
    intro a ha hb
    simp only [List.map_cons, List.map_nil, List.mem_singleton] at hb
    obtain ⟨el, hel, helfst⟩ := List.mem_map.mp ha
    have := h4 el hel
    omega
  · intro pr1 hpr1 pr2 hpr2 heq
    rcases List.mem_cons.mp hpr1 with hm1 | hm1 <;>
      rcases List.mem_cons.mp hpr2 with hm2 | hm2
    · rw [hm1, hm2]
    · exfalso
      have hin2 := (List.mem_filter.mp hm2).1
      have hlt := h4 pr2.2 (h3 pr2 hin2)
      rw [hm1] at heq
      simp only at heq
      omega
    · exfalso
      have hin1 := (List.mem_filter.mp hm1).1
      have hlt := h4 pr1.2 (h3 pr1 hin1)
      rw [hm2] at heq
      simp only at heq
      omega
    · exact h6 pr1 (List.mem_filter.mp hm1).1 pr2 (List.mem_filter.mp hm2).1 heq
  · intro cid
    have hw : chanWrites { c with
        chans := c.chans ++ [[]]
        requestList := c.requestList ++ [(c.nextElem, j)]
        requestMap := (j.id, (c.nextElem, j)) :: c.requestMap.filter (fun p => p.1 ≠ j.id)
        nextElem := c.nextElem + 1 } cid
        = chanWrites c cid := chanWrites_extend c cid
    have hlr : listRefs { c with
        chans := c.chans ++ [[]]
        requestList := c.requestList ++ [(c.nextElem, j)]
        requestMap := (j.id, (c.nextElem, j)) :: c.requestMap.filter (fun p => p.1 ≠ j.id)
        nextElem := c.nextElem + 1 } cid
        = listRefs c cid + (if j.responseChan == cid then 1 else 0) := by
      show (c.requestList ++ [((c.nextElem, j) : Element)]).countP
          (fun el => el.2.responseChan == cid) = _
      rw [List.countP_append]
      simp [List.countP_cons, queueRefs, listRefs]
    have hqr : queueRefs { c with
        chans := c.chans ++ [[]]
        requestList := c.requestList ++ [(c.nextElem, j)]
        requestMap := (j.id, (c.nextElem, j)) :: c.requestMap.filter (fun p => p.1 ≠ j.id)
        nextElem := c.nextElem + 1 } cid
        = queueRefs c cid := rfl
    rw [hw, hlr, hqr]
    by_cases hc : cid = c.chans.length
    · rw [hc] at *
      rw [chanWrites_oob c c.chans.length (Nat.le_refl _),
          listRefs_zero_of_oob c c.chans.length h1 (Nat.le_refl _),
          queueRefs_zero_of_oob c c.chans.length h2 (Nat.le_refl _)]
      simp [hj]
    · have hne : (j.responseChan == cid) = false := by
        simp only [beq_eq_false_iff_ne]
        rw [hj]
        exact fun heq => hc heq.symm
      simp only [hne, Bool.false_eq_true, if_false]
      have := h7 cid
      omega

theorem ClientInv_addFresh (c : Client) (j : jsonRequest)
    (hj : j.responseChan = c.chans.length) (h : ClientInv c) :
    ClientInv (addRequest { c with chans := c.chans ++ [[]] } j).2 := by
  by_cases hsd : c.shutdownClosed
  · have heq : addRequest { c with chans := c.chans ++ [[]] } j
        = (some .clientShutdown, { c with chans := c.chans ++ [[]] }) := by
      simp [addRequest, hsd]
    rw [heq]
    exact ClientInv_extend c h
  · rw [addRequest_open_eq _ _ (by simpa using hsd)]
    exact ClientInv_addRecord c j hj h

theorem sendRequest_ws_eq (c : Client) (j : jsonRequest)
    (h : c.config.HTTPPostMode = false) : sendRequest c j = c := by
  simp [sendRequest, h]

theorem sendRequest_post_eq (c : Client) (j : jsonRequest)
    (h : c.config.HTTPPostMode = true) : sendRequest c j = sendPost c j := by
  simp [sendRequest, h]

theorem sendPost_urlFail_eq (c : Client) (j : jsonRequest) (h : c.config.urlOK = false) :
    sendPost c j = writeChan c j.responseChan
      { result := none, err := some (.newRequestErr
          ((if c.config.DisableTLS then "http" else "https") ++ "://" ++ c.config.Host)) } := by
  simp [sendPost, h]

theorem sendPost_urlOK_eq (c : Client) (j : jsonRequest) (h : c.config.urlOK = true) :
    sendPost c j = sendPostRequest c
      { url := (if c.config.DisableTLS then "http" else "https") ++ "://" ++ c.config.Host,
        body := j.marshalledJSON, contentType := "application/json",
        user := c.config.User, pass := c.config.Pass } j := by
  simp [sendPost, h]

theorem sendPostRequest_open_eq (c : Client) (hr : httpRequest) (j : jsonRequest)
    (h : c.shutdownClosed = false) :
    sendPostRequest c hr j =
      { c with sendPostChan := c.sendPostChan ++ [{ httpReq := hr, jReq := j }] } := by
  simp [sendPostRequest, h]

theorem ClientInv_sendCmd (c : Client) (cmd : Cmd)
    (hsd : c.shutdownClosed = false) (h : ClientInv c) :
    ClientInv (sendCmd c cmd).2 := by
  rcases hm : cmd.methodRes with e | method
  · rw [sendCmd_methodErr_eq c cmd e hm]
    exact ClientInv_writeNew c _ h
  · rcases hmar : cmd.marshalRes ((c.id + 1) % 2 ^ 64) with e | mj
    · rw [sendCmd_marshalErr_eq c cmd method e hm hmar]
      exact ClientInv_writeNew { c with id := (c.id + 1) % 2 ^ 64 } _ h
    · rw [sendCmd_ok_eq c cmd method mj hm hmar]
      show ClientInv (sendRequest { c with id := (c.id + 1) % 2 ^ 64, chans := c.chans ++ [[]] }
        { id := (c.id + 1) % 2 ^ 64, method := method, marshalledJSON := mj,
          responseChan := c.chans.length })
      by_cases hpm : c.config.HTTPPostMode = true
      · have hpm2 : ({ c with id := (c.id + 1) % 2 ^ 64, chans := c.chans ++ [[]] } : Client).config.HTTPPostMode = true := hpm
        rw [sendRequest_post_eq _ _ hpm2]
        by_cases hurl : c.config.urlOK = true
        · have hurl2 : ({ c with id := (c.id + 1) % 2 ^ 64, chans := c.chans ++ [[]] } : Client).config.urlOK = true := hurl
          have hsd2 : ({ c with id := (c.id + 1) % 2 ^ 64, chans := c.chans ++ [[]] } : Client).shutdownClosed = false := hsd
          rw [sendPost_urlOK_eq _ _ hurl2, sendPostRequest_open_eq _ _ _ hsd2]
          exact ClientInv_enqueueNew { c with id := (c.id + 1) % 2 ^ 64 } _ _ rfl h
        · have hurl2 : ({ c with id := (c.id + 1) % 2 ^ 64, chans := c.chans ++ [[]] } : Client).config.urlOK = false := by
            simpa using hurl
          rw [sendPost_urlFail_eq _ _ hurl2]
          exact ClientInv_writeNew { c with id := (c.id + 1) % 2 ^ 64 } _ h
      · have hpm2 : ({ c with id := (c.id + 1) % 2 ^ 64, chans := c.chans ++ [[]] } : Client).config.HTTPPostMode = false := by
          simpa using hpm
        rw [sendRequest_ws_eq _ _ hpm2]
        exact ClientInv_extend c h

theorem ClientInv_dequeueWrite (c : Client) (d : sendPostDetails)
    (rest : List sendPostDetails) (r : response)
    (hqe : c.sendPostChan = d :: rest) (h : ClientInv c) :
    ClientInv (writeChan { c with sendPostChan := rest } d.jReq.responseChan r) := by
  obtain ⟨h1, h2, h3, h4, h5, h6, h7⟩ := h
  have hdc : d.jReq.responseChan < c.chans.length :=
    h2 d (by rw [hqe]; exact List.mem_cons_self _ _)
  refine ⟨?_, ?_, h3, h4, h5, h6, ?_⟩
  · intro el hel
    rw [writeChan_chans_length]
    exact h1 el hel
  · intro e he
    rw [writeChan_chans_length]
    exact h2 e (by rw [hqe]; exact List.mem_cons_of_mem _ he)
  · intro cid
    have hlr : listRefs (writeChan { c with sendPostChan := rest } d.jReq.responseChan r) cid
        = listRefs c cid := rfl
    have hqr : queueRefs (writeChan { c with sendPostChan := rest } d.jReq.responseChan r) cid
        = rest.countP (fun e => e.jReq.responseChan == cid) := rfl
    have hqc : queueRefs c cid
        = rest.countP (fun e => e.jReq.responseChan == cid)
          + (if d.jReq.responseChan == cid then 1 else 0) := by
      show c.sendPostChan.countP _ = _
      rw [hqe, List.countP_cons]
    rw [hlr, hqr]
    have hcw : chanWrites { c with sendPostChan := rest } cid = chanWrites c cid := rfl
    by_cases hc : cid = d.jReq.responseChan
    · have hdc2 : d.jReq.responseChan
          < ({ c with sendPostChan := rest } : Client).chans.length := hdc
      rw [hc, chanWrites_writeChan_self _ _ _ hdc2]
      have hcw2 : chanWrites { c with sendPostChan := rest } d.jReq.responseChan
          = chanWrites c d.jReq.responseChan := rfl
      rw [hcw2]
      have hb := h7 d.jReq.responseChan
      have hqc2 : queueRefs c d.jReq.responseChan
          = rest.countP (fun e => e.jReq.responseChan == d.jReq.responseChan) + 1 := by
        rw [hc] at hqc
        simpa using hqc
      rw [hqc2] at hb
      simp only [List.length_append, List.length_singleton]
      omega
    · rw [chanWrites_writeChan_ne _ _ _ _ hc, hcw]
      have hb := h7 cid
      rw [hqc] at hb
      omega

theorem ClientInv_handlerStep (c : Client) (out : httpOutcome) (h : ClientInv c) :
    ClientInv (sendPostHandlerStep c out) := by
  rcases hqe : c.sendPostChan with _ | ⟨d, rest⟩
  · have : sendPostHandlerStep c out = c := by
      simp [sendPostHandlerStep, hqe]
    rw [this]
    exact h
  · have hstep : sendPostHandlerStep c out
        = handleSendPostMessage { c with sendPostChan := rest } d out := by
      simp [sendPostHandlerStep, hqe]
    rw [hstep]
    rcases out with e | e | ⟨st, bd, pr⟩
    · exact ClientInv_dequeueWrite c d rest _ hqe h
    · exact ClientInv_dequeueWrite c d rest _ hqe h
    · rcases pr with _ | resp
      · exact ClientInv_dequeueWrite c d rest _ hqe h
      · show ClientInv (writeChan { c with sendPostChan := rest } d.jReq.responseChan
          { result := (rawResponse.result resp).1, err := (rawResponse.result resp).2 })
        exact ClientInv_dequeueWrite c d rest _ hqe h

theorem drainPostQueue_nextElem (l : List sendPostDetails) (c : Client) :
    (drainPostQueue l c).nextElem = c.nextElem := by
  induction l generalizing c with
  | nil => rfl
  | cons d rest ih => simp [drainPostQueue, ih]

theorem ClientInv_drain (c : Client) (h : ClientInv c) :
    ClientInv (sendPostHandlerDrain c) := by
  obtain ⟨h1, h2, h3, h4, h5, h6, h7⟩ := h
  have hin : ∀ d ∈ c.sendPostChan,
      d.jReq.responseChan < ({ c with sendPostChan := ([] : List sendPostDetails) } : Client).chans.length := h2
  have heq : ∀ cid, chanWrites (sendPostHandlerDrain c) cid
      = chanWrites c cid ++ List.replicate (queueRefs c cid) shutdownResponse := by
    intro cid
    show chanWrites (drainPostQueue c.sendPostChan { c with sendPostChan := [] }) cid = _
    rw [drainPostQueue_chanWrites _ _ _ hin]
    rfl
  have hql : (sendPostHandlerDrain c).requestList = c.requestList := by
    show (drainPostQueue c.sendPostChan { c with sendPostChan := [] }).requestList = _
    rw [drainPostQueue_requestList]
  have hqm : (sendPostHandlerDrain c).requestMap = c.requestMap := by
    show (drainPostQueue c.sendPostChan { c with sendPostChan := [] }).requestMap = _
    rw [drainPostQueue_requestMap]
  have hqq : (sendPostHandlerDrain c).sendPostChan = [] := by
    show (drainPostQueue c.sendPostChan { c with sendPostChan := [] }).sendPostChan = _
    rw [drainPostQueue_sendPostChan]
  have hqn : (sendPostHandlerDrain c).nextElem = c.nextElem := by
    show (drainPostQueue c.sendPostChan { c with sendPostChan := [] }).nextElem = _
    rw [drainPostQueue_nextElem]
  have hqlen : (sendPostHandlerDrain c).chans.length = c.chans.length := by
    show (drainPostQueue c.sendPostChan { c with sendPostChan := [] }).chans.length = _
    rw [drainPostQueue_chans_length]
  refine ⟨?_, ?_, ?_, ?_, ?_, ?_, ?_⟩
  · intro el hel
    rw [hql] at hel
    rw [hqlen]
    exact h1 el hel
  · intro d hd
    rw [hqq] at hd
    cases hd
  · intro pr hpr
    rw [hqm] at hpr
    rw [hql]
    exact h3 pr hpr
  · intro el hel
    rw [hql] at hel
    rw [hqn]
    exact h4 el hel
  · rw [hql]
    exact h5
  · intro pr1 hpr1 pr2 hpr2
    rw [hqm] at hpr1 hpr2
    exact h6 pr1 hpr1 pr2 hpr2
  · intro cid
    have hlr : listRefs (sendPostHandlerDrain c) cid = listRefs c cid := by
      show (sendPostHandlerDrain c).requestList.countP _ = _
      rw [hql]
      rfl
    have hqr : queueRefs (sendPostHandlerDrain c) cid = 0 := by
      show (sendPostHandlerDrain c).sendPostChan.countP _ = 0
      rw [hqq]
      rfl
    rw [heq, hlr, hqr, List.length_append, List.length_replicate]
    have := h7 cid
    omega

theorem ClientInv_removeDeliver (c : Client) (rid : Nat) (el : Element) (r : response)
    (hmap : c.requestMap.lookup rid = some el) (h : ClientInv c) :
    ClientInv (writeChan
      { c with requestMap := c.requestMap.filter (fun p => p.1 ≠ rid)
               requestList := c.requestList.filter (fun e => e.1 ≠ el.1) }
      el.2.responseChan r) := by
  obtain ⟨h1, h2, h3, h4, h5, h6, h7⟩ := h
  have hmem : (rid, el) ∈ c.requestMap := lookup_mem _ _ _ hmap
  have hlist : el ∈ c.requestList := h3 (rid, el) hmem
  obtain ⟨l1, l2, hdecomp⟩ := List.mem_iff_append.mp hlist
  have hchan : el.2.responseChan < c.chans.length := h1 el hlist
  have hfilter : c.requestList.filter (fun e => e.1 ≠ el.1) = l1 ++ l2 := by
    rw [hdecomp]
    exact filter_ne_middle l1 l2 el (by rw [← hdecomp]; exact h5)
  refine ⟨?_, ?_, ?_, ?_, ?_, ?_, ?_⟩
  · intro e he
    rw [writeChan_chans_length]
    exact h1 e (List.mem_of_mem_filter he)
  · intro d hd
    rw [writeChan_chans_length]
    exact h2 d hd
  · intro pr hpr
    have hprm := List.mem_filter.mp hpr
    have hin : pr.2 ∈ c.requestList := h3 pr hprm.1
    have hne : pr.2.1 ≠ el.1 := by
      intro heq2
      have hprrid := h6 pr hprm.1 (rid, el) hmem heq2
      have hne2 := hprm.2
      simp only [decide_eq_true_eq] at hne2
      exact hne2 hprrid
    exact List.mem_filter.mpr ⟨hin, by simpa using hne⟩
  · intro e he
    exact h4 e (List.mem_of_mem_filter he)
  · exact h5.sublist ((List.filter_sublist _).map Prod.fst)
  · intro pr1 hpr1 pr2 hpr2
    exact h6 pr1 (List.mem_filter.mp hpr1).1 pr2 (List.mem_filter.mp hpr2).1
  · intro cid
    have hlrold : listRefs c cid
        = (l1 ++ l2).countP (fun e => e.2.responseChan == cid)
          + (if el.2.responseChan == cid then 1 else 0) := by
      show c.requestList.countP _ = _
      rw [hdecomp, List.countP_append, List.countP_cons, List.countP_append]
      omega
    have hlrnew : listRefs (writeChan
        { c with requestMap := c.requestMap.filter (fun p => p.1 ≠ rid)
                 requestList := c.requestList.filter (fun e => e.1 ≠ el.1) }
        el.2.responseChan r) cid
        = (l1 ++ l2).countP (fun e => e.2.responseChan == cid) := by
      show (c.requestList.filter (fun e => e.1 ≠ el.1)).countP _ = _
      rw [hfilter]
    have hqrnew : queueRefs (writeChan
        { c with requestMap := c.requestMap.filter (fun p => p.1 ≠ rid)
                 requestList := c.requestList.filter (fun e => e.1 ≠ el.1) }
        el.2.responseChan r) cid = queueRefs c cid := rfl
    have hchan2 : el.2.responseChan < ({ c with
        requestMap := c.requestMap.filter (fun p => p.1 ≠ rid)
        requestList := c.requestList.filter (fun e => e.1 ≠ el.1) } : Client).chans.length := hchan
    have hcw : ∀ cid2, chanWrites { c with
        requestMap := c.requestMap.filter (fun p => p.1 ≠ rid)
        requestList := c.requestList.filter (fun e => e.1 ≠ el.1) } cid2
        = chanWrites c cid2 := fun _ => rfl
    rw [hlrnew, hqrnew]
    by_cases hc : cid = el.2.responseChan
    · have hlrold2 := hlrold
      rw [hc] at hlrold2 ⊢
      rw [chanWrites_writeChan_self _ _ _ hchan2, hcw]
      have hb := h7 el.2.responseChan
      rw [hlrold2] at hb
      simp only [beq_self_eq_true, if_true] at hb
      simp only [List.length_append, List.length_singleton]
      omega
    · rw [chanWrites_writeChan_ne _ _ _ _ hc, hcw]
      have hb := h7 cid
      rw [hlrold] at hb
      omega

theorem ClientInv_handleMessage (c : Client) (msg : inboundMsg) (h : ClientInv c) :
    ClientInv (handleMessage c msg) := by
  rcases msg with _ | m
  · exact h
  · rcases hID : m.ID with _ | q
    · rw [handleMessage_id_none c m hID]
      exact h
    · by_cases hg : q < 0 ∨ q ≠ mathTrunc q
      · have heq : handleMessage c (.parsed m) = c := by
          simp only [handleMessage, hID, if_pos hg]
        rw [heq]
        exact h
      · rw [not_or] at hg
        rcases hmap : c.requestMap.lookup (ratToUint64 q) with _ | el
        · have heq : handleMessage c (.parsed m) = c := by
            simp only [handleMessage, hID, if_neg (not_or.mpr hg)]
            rw [removeRequest_miss c _ hmap]
          rw [heq]
          exact h
        · rw [handleMessage_response_hit c m q el hID hg.1 (by simpa using hg.2) hmap]
          exact ClientInv_removeDeliver c (ratToUint64 q) el _ hmap h

theorem ClientInv_Shutdown (c : Client) (h : ClientInv c) :
    ClientInv (Shutdown c) := by
  by_cases hsd : c.shutdownClosed
  · rw [Shutdown_closed c hsd]
    exact h
  · obtain ⟨h1, h2, h3, h4, h5, h6, h7⟩ := h
    rw [Shutdown_open_eq c (by simpa using hsd)]
    have hin : ∀ el ∈ c.requestList,
        el.2.responseChan < ({ c with shutdownClosed := true } : Client).chans.length := h1
    have hlen : (removeAllRequests (deliverShutdownErr c.requestList
        { c with shutdownClosed := true })).chans.length = c.chans.length := by
      show (deliverShutdownErr c.requestList { c with shutdownClosed := true }).chans.length = _
      rw [deliverShutdownErr_chans_length]
    have hqeq : (removeAllRequests (deliverShutdownErr c.requestList
        { c with shutdownClosed := true })).sendPostChan = c.sendPostChan := by
      show (deliverShutdownErr c.requestList { c with shutdownClosed := true }).sendPostChan = _
      rw [deliverShutdownErr_sendPostChan]
    refine ⟨?_, ?_, ?_, ?_, ?_, ?_, ?_⟩
    · intro el hel
      cases hel
    · intro d hd
      rw [hqeq] at hd
      rw [hlen]
      exact h2 d hd
    · intro pr hpr
      cases hpr
    · intro el hel
      cases hel
    · exact List.nodup_nil
    · intro pr1 hpr1
      cases hpr1
    · intro cid
      have hw : chanWrites (removeAllRequests (deliverShutdownErr c.requestList
          { c with shutdownClosed := true })) cid
          = chanWrites c cid ++ List.replicate (listRefs c cid) shutdownResponse := by
        show chanWrites (deliverShutdownErr c.requestList { c with shutdownClosed := true }) cid = _
        rw [deliverShutdownErr_chanWrites _ _ _ hin]
        rfl
      have hlr : listRefs (removeAllRequests (deliverShutdownErr c.requestList
          { c with shutdownClosed := true })) cid = 0 := rfl
      have hqr : queueRefs (removeAllRequests (deliverShutdownErr c.requestList
          { c with shutdownClosed := true })) cid = queueRefs c cid := by
        show (removeAllRequests (deliverShutdownErr c.requestList
          { c with shutdownClosed := true })).sendPostChan.countP _ = _
        rw [hqeq]
        rfl
      rw [hw, hlr, hqr, List.length_append, List.length_replicate]
      have := h7 cid
      omega

theorem ClientInv_runOps (c : Client) (ops : List clientOp)
    (h : ClientInv c) (hok : opsOK c ops = true) : ClientInv (runOps c ops) := by
  induction ops generalizing c with
  | nil => exact h
  | cons o os ih =>
    have hok2 : opsOK (runOp c o) os = true := by
      simp only [opsOK, Bool.and_eq_true] at hok
      exact hok.2
    have hnext : ClientInv (runOp c o) := by
      rcases o with ⟨rid, method, mj⟩ | cmd | out | _ | msg | _
      · exact ClientInv_addFresh c _ rfl h
      · have hsd : c.shutdownClosed = false := by
          simp only [opsOK, Bool.and_eq_true] at hok
          have h1 := hok.1
          simpa using h1
        exact ClientInv_sendCmd c cmd hsd h
      · exact ClientInv_handlerStep c out h
      · exact ClientInv_drain c h
      · exact ClientInv_handleMessage c msg h
      · exact ClientInv_Shutdown c h
    exact ih (runOp c o) hnext hok2

/-- C2 (amended): over any sequence of client operations in which
`sendCmd` is never invoked after shutdown has begun — registering fresh
requests, `sendCmd` dispatch, `sendPostHandler` main-loop iterations, the
cleanup drain, inbound deliveries through `handleMessage`, and `Shutdown`
— every single-slot response channel is written at most once, starting
from any state satisfying the client invariant.  (The excluded schedule,
`sendCmd` after shutdown followed by the drain, genuinely writes one
channel twice; see the counterexample.) -/
theorem C2_atMostOnce (c : Client) (ops : List clientOp)
    (hInv : ClientInv c) (hok : opsOK c ops = true) :
    ∀ cid, (chanWrites (runOps c ops) cid).length ≤ 1 := by
  intro cid
  have h := ClientInv_runOps c ops hInv hok
  have hb := h.2.2.2.2.2.2 cid
  omega

/-- Closed instance of the amended C2: a mixed schedule of one POST
dispatch, one handler iteration, one registration, one inbound reply, a
shutdown and the drain leaves every channel with at most one write. -/
theorem C2_witness :
    opsOK (New postCfg)
      [.post blockCountCmd,
       .handlerStep (.reply 200 "ok" (some { Result := some "abc", Error := none })),
       .register 7 "getbestblockhash" "h",
       .inbound (.parsed { ID := some (7 : Rat), ntfn := { Method := "", Params := none },
                           resp := { Result := some "xyz", Error := none } }),
       .shutdownCall,
       .handlerDrain] = true ∧
    ∀ cid, (chanWrites (runOps (New postCfg)
      [.post blockCountCmd,
       .handlerStep (.reply 200 "ok" (some { Result := some "abc", Error := none })),
       .register 7 "getbestblockhash" "h",
       .inbound (.parsed { ID := some (7 : Rat), ntfn := { Method := "", Params := none },
                           resp := { Result := some "xyz", Error := none } }),
       .shutdownCall,
       .handlerDrain]) cid).length ≤ 1 :=
  ⟨by decide,
   C2_atMostOnce (New postCfg)
      [.post blockCountCmd,
       .handlerStep (.reply 200 "ok" (some { Result := some "abc", Error := none })),
       .register 7 "getbestblockhash" "h",
       .inbound (.parsed { ID := some (7 : Rat), ntfn := { Method := "", Params := none },
                           resp := { Result := some "xyz", Error := none } }),
       .shutdownCall,
       .handlerDrain]
      (ClientInv_New postCfg) (by decide)⟩
